import Mathlib

/-!
Verification development for the Steel-browser Gemini login automation
(`core/gemini_automation_steel.py`).  The Python source is shallowly
embedded: the pure URL/cookie parsing of `_extract_config` becomes pure
Lean functions over `List Char` / `String`, Python timestamps become `Int`
seconds since the Unix epoch, and the stateful login flow `_run_flow` /
`login_and_extract` becomes a program in a small state-plus-exception
monad whose external collaborators (remote page, mail poller, log
callback) are supplied by an environment record.
-/

/-! ## Python string semantics: substring search and `str.split` -/

/-- First index at which `sep` occurs as a contiguous sublist of `s`
(`none` if it does not occur).  For nonempty `sep` this is the index used
by Python `str.find` / the first split point of `str.split`. -/
def findSub (sep : List Char) : List Char → Option Nat
  | [] => if sep.isEmpty then some 0 else none
  | s@(_ :: rest) =>
    if sep.isPrefixOf s then some 0 else (findSub sep rest).map (· + 1)

/-- Python `str.split` with a nonempty separator `c :: cs`: scans left to
right, cutting at each non-overlapping occurrence of the separator.
Mirrors CPython semantics (`"aaa".split("aa") == ["", "a"]`).  Structural
recursion on a fuel that always suffices (each cut consumes at least one
character), so the kernel can evaluate it on concrete strings. -/
def pySplitFuel (c : Char) (cs : List Char) : Nat → List Char → List (List Char)
  | 0, s => [s]
  | fuel + 1, s =>
    match findSub (c :: cs) s with
    | none => [s]
    | some i => s.take i :: pySplitFuel c cs fuel (s.drop (i + (cs.length + 1)))

def pySplitGo (c : Char) (cs : List Char) (s : List Char) : List (List Char) :=
  pySplitFuel c cs s.length s

/-- Python `s.split(sep)` on character lists (total; the `sep = []` case,
which raises `ValueError` in Python, is arbitrarily `[s]` and is never
used: every separator in the source is a nonempty literal). -/
def pySplit (sep s : List Char) : List (List Char) :=
  match sep with
  | [] => [s]
  | c :: cs => pySplitGo c cs s

/-- Python `sub in hay` substring containment (for nonempty `sub`, as
everywhere in the source). -/
def pyInStr (sub hay : String) : Bool := (findSub sub.data hay.data).isSome

/-- `url.split("cid/")[1].split("?")[0].split("/")[0]`, the config-id
parse on line 514 of `gemini_automation_steel.py` (reached only under the
guard `"cid/" in url`, so index 1 exists; out of that domain the `getD`
default is irrelevant). -/
def pyConfigIdL (u : List Char) : List Char :=
  (pySplit ['/'] ((pySplit ['?'] ((pySplit "cid/".data u).getD 1 [])).getD 0 [])).getD 0 []

/-- `url.split("csesidx=")[1].split("&")[0]`, the session-index parse on
line 515 (reached only under `"csesidx=" in url`). -/
def pyCsesidxL (u : List Char) : List Char :=
  (pySplit ['&'] ((pySplit "csesidx=".data u).getD 1 [])).getD 0 []

def pyConfigId (url : String) : String := ⟨pyConfigIdL url.data⟩

def pyCsesidx (url : String) : String := ⟨pyCsesidxL url.data⟩

/-! ## Claim-side parsers for C6

`claimConfigIdL` follows the claim's words literally: the path segment
immediately following the first occurrence of `cid/`, truncated at the
next `?` or `/`.  `amendedConfigIdL` is the amended version: additionally
truncated at the next occurrence of `cid/` itself (the earliest of the
three cut points wins). -/

/-- Index of the first occurrence of character `ch` in `l`, or `l.length`
if absent. -/
def charIdx (ch : Char) (l : List Char) : Nat := (findSub [ch] l).getD l.length

/-- Index of the first occurrence of `sep` in `l`, or `l.length` if absent. -/
def subIdxOrLen (sep l : List Char) : Nat := (findSub sep l).getD l.length

/-- C6 as written: text after the first `cid/`, truncated at the earliest
of the next `?` or `/`. -/
def claimConfigIdL (u : List Char) : List Char :=
  match findSub "cid/".data u with
  | none => []
  | some i =>
    let after := u.drop (i + 4)
    after.take (min (charIdx '?' after) (charIdx '/' after))

/-- C6 amended: text after the first `cid/`, truncated at the earliest of
the next occurrence of `cid/`, the next `?` and the next `/`. -/
def amendedConfigIdL (u : List Char) : List Char :=
  match findSub "cid/".data u with
  | none => []
  | some i =>
    let after := u.drop (i + 4)
    after.take (min (subIdxOrLen "cid/".data after) (min (charIdx '?' after) (charIdx '/' after)))

/-- C6 amended, session-index half: text after the first `csesidx=`,
truncated at the earliest of the next occurrence of `csesidx=` and the
next `&`. -/
def amendedCsesidxL (u : List Char) : List Char :=
  match findSub "csesidx=".data u with
  | none => []
  | some i =>
    let after := u.drop (i + 8)
    after.take (min (subIdxOrLen "csesidx=".data after) (charIdx '&' after))

/-! ## Timestamps: epoch seconds, the fixed UTC+8 offset, `strftime` -/

/-- Zero-padded two-digit decimal (`%m`, `%d`, `%H`, `%M`, `%S`). -/
def pad2 (n : Nat) : String := if n < 10 then "0" ++ toString n else toString n

/-- Civil date (year, month, day) of a day count relative to 1970-01-01,
the proleptic-Gregorian algorithm used by every C / Python time library. -/
def civilFromDays (z : Int) : Int × Nat × Nat :=
  let zz := z + 719468
  let era := zz.fdiv 146097
  let doe := (zz.fmod 146097).toNat
  let yoe := (doe - doe / 1460 + doe / 36524 - doe / 146096) / 365
  let doy := doe - (365 * yoe + yoe / 4 - yoe / 100)
  let mp := (5 * doy + 2) / 153
  let d := doy - (153 * mp + 2) / 5 + 1
  let m := if mp < 10 then mp + 3 else mp - 9
  (era * 400 + yoe + (if m ≤ 2 then 1 else 0), m, d)

/-- Format epoch-seconds `t` as `"%Y-%m-%d %H:%M:%S"` of the UTC instant
`t` (the caller applies the timezone shift first). -/
def fmtCivil (t : Int) : String :=
  let days := t.fdiv 86400
  let sod := (t.fmod 86400).toNat
  let ymd := civilFromDays days
  toString ymd.1 ++ "-" ++ pad2 ymd.2.1 ++ "-" ++ pad2 ymd.2.2 ++ " " ++
    pad2 (sod / 3600) ++ ":" ++ pad2 (sod % 3600 / 60) ++ ":" ++ pad2 (sod % 60)

/-- `datetime.fromtimestamp(t, timezone(timedelta(hours=8)))` followed by
`strftime("%Y-%m-%d %H:%M:%S")`: format the instant in the fixed UTC+8
offset used on line 523 (`beijing_tz`). -/
def fmtUTC8 (t : Int) : String := fmtCivil (t + 8 * 3600)

/-- Spec-side inverse: day count of a civil date (days-from-civil). -/
def daysFromCivil (y : Int) (m d : Nat) : Int :=
  let yy := y - (if m ≤ 2 then 1 else 0)
  let era := yy.fdiv 400
  let yoe := (yy - era * 400).toNat
  let doy := (153 * (if 2 < m then m - 3 else m + 9) + 2) / 5 + d - 1
  let doe := yoe * 365 + yoe / 4 - yoe / 100 + doy
  era * 146097 + (doe : Int) - 719468

/-- Spec-side: epoch seconds of a civil instant given in the fixed UTC+8
offset (used to state C1's fixed instant `2025-01-02T00:00:00+08:00`). -/
def epochOfCivilUTC8 (y : Int) (m d h mi s : Nat) : Int :=
  daysFromCivil y m d * 86400 + (h * 3600 + mi * 60 + s : Nat) - 8 * 3600

/-- Lines 521-529 of `_extract_config`: `expires_at` from the optional
expiry of the `__Secure-C_SES` cookie (`ses_obj and "expires" in
ses_obj`) and the current instant.  A known expiry is shifted 12 h into
the past, an unknown one becomes "now plus 12 h", both rendered in the
fixed UTC+8 offset. -/
def computeExpiresAt (sesExpires : Option Int) (now : Int) : String :=
  match sesExpires with
  | some e => fmtUTC8 (e - 12 * 3600)
  | none => fmtUTC8 (now + 12 * 3600)

/-! ## The credential extractor `_extract_config` (lines 503-541) -/

/-- One Playwright cookie as read from `page.context.cookies()`: the
`expires` field models presence of the `"expires"` key in the cookie
dict (whole seconds; the claims only involve integral instants). -/
structure PwCookie where
  name : String
  value : String
  expires : Option Int
deriving DecidableEq, Repr

/-- The output dictionary built on lines 531-538. -/
structure GeminiConfig where
  id : String
  csesidx : String
  config_id : String
  secure_c_ses : Option String
  host_c_oses : Option String
  expires_at : String
deriving DecidableEq, Repr

/-- `{"success": True, "config": ...}` / `{"success": False, "error": ...}`. -/
inductive ExtractOutcome where
  | success (config : GeminiConfig)
  | failure (error : String)
deriving DecidableEq, Repr

/-- The url-parsing and cookie-reading core of `_extract_config` once a
URL containing `cid/` is in hand (lines 514-539).  `cookiesExc` models an
exception raised by the remote `page.context.cookies()` call, caught by
the surrounding `except` and returned as its message. -/
def extractCore (u : String) (cookiesExc : Option String) (cookies : List PwCookie)
    (now : Int) (email : String) : ExtractOutcome :=
  let config_id := pyConfigId u
  let csesidx := if pyInStr "csesidx=" u then pyCsesidx u else ""
  match cookiesExc with
  | some msg => .failure msg
  | none =>
    let ses := (cookies.find? (fun c => c.name == "__Secure-C_SES")).map (·.value)
    let host := (cookies.find? (fun c => c.name == "__Host-C_OSES")).map (·.value)
    let sesObj := cookies.find? (fun c => c.name == "__Secure-C_SES")
    let expires_at := computeExpiresAt (sesObj.bind (·.expires)) now
    .success ⟨email, csesidx, config_id, ses, host, expires_at⟩

/-- `_extract_config` as a pure function of a URL/cookie snapshot.
`urlFirst` is `page.url` on entry; if it lacks `cid/` the code performs
one defensive `page.goto` to the business root (`navExc` is the message
of an exception raised by that navigation, caught by the outer `except`)
after which the URL reads `urlAfterNav`.  The second component counts the
defensive navigations performed.  No exception escapes: the whole body is
wrapped in `try/except Exception` returning `{"success": False, "error":
str(e)}`. -/
def extractConfigPure (urlFirst urlAfterNav : String) (navExc : Option String)
    (cookiesExc : Option String) (cookies : List PwCookie) (now : Int)
    (email : String) : ExtractOutcome × Nat :=
  if pyInStr "cid/" urlFirst then
    (extractCore urlFirst cookiesExc cookies now email, 0)
  else
    match navExc with
    | some msg => (.failure msg, 1)
    | none =>
      if pyInStr "cid/" urlAfterNav then
        (extractCore urlAfterNav cookiesExc cookies now email, 1)
      else
        (.failure "cid not found", 1)

def amendedConfigId (url : String) : String := ⟨amendedConfigIdL url.data⟩

def amendedCsesidx (url : String) : String := ⟨amendedCsesidxL url.data⟩

/-! ## The login flow `_run_flow` / `login_and_extract`

Exceptions: `TaskCancelledError` (defined in `core/base_task_service.py`,
outside the sources; modelled from the spec as the cooperative
cancellation signal raised only by the logging collaborator, and — as the
explicit `except TaskCancelledError: raise` guards before `except
Exception` handlers in the source imply — an `Exception` subclass, so a
bare `except Exception` does catch it), `PlaywrightTimeoutError`, and
ordinary exceptions, each carrying its `str(...)` message. -/

inductive PyExc where
  | cancelled (msg : String)
  | pwTimeout (msg : String)
  | other (msg : String)
deriving DecidableEq, Repr

/-- Python `str(e)`. -/
def pyExcStr : PyExc → String
  | .cancelled m => m
  | .pwTimeout m => m
  | .other m => m

/-- Sites of the explicit `return {"success": False, ...}` statements in
`_run_flow`, recorded in the trace so unreachability of a branch can be
stated independently of the (environment-chosen) message strings. -/
inductive FailSite where
  | sendBtnMissing
  | codeInputMissing
  | codeTimeout
  | codeTimeoutAfterResend
  | codeInputExpired
  | verifySubmitFailed
  | paramsNotFound
deriving DecidableEq, Repr

/-- Observable actions of one login attempt, in program order. -/
inductive Event where
  | navigate (url : String)
  | reloadPage
  | sendCodeSearch
  | waitCodeInput
  | pollMail (since : Nat)
  | resendSearch
  | usernameSetup
  | screenshot (name : String)
  | extractCalled
  | stopped
  | failAt (site : FailSite)
deriving DecidableEq, Repr

/-- Mutable state of a run: a millisecond clock (advanced by the
`time.sleep` calls and by environment-chosen operation durations), the
number of log calls issued so far, and the event trace. -/
structure FlowSt where
  clock : Nat
  logCalls : Nat
  events : List Event
deriving DecidableEq, Repr

/-- Outcome of one invocation of the log callback. -/
inductive LogOutcome where
  | ok
  | cancel (msg : String)
  | fail (msg : String)
deriving DecidableEq, Repr

/-- Environment: everything the flow observes from the outside world.
`pageUrl` is the remote page's URL as a function of the clock; helper
methods whose bodies only probe the UI are oracles returning their
result (and, for `_click_send_code_button`, possibly a propagated
exception — see the individual wrappers); `logCb` decides, per call
index, level and message, what the installed log callback does. -/
structure FlowEnv where
  pageUrl : Nat → String
  cookies : List PwCookie
  epoch0 : Int
  hasLogCallback : Bool
  logCb : Nat → String → String → LogOutcome
  connect : Except PyExc Unit
  dConnect : Nat
  gotoHome : Except PyExc Unit
  dGotoHome : Nat
  addCookiesExc : Option String
  gotoLogin : Except PyExc Unit
  dGotoLogin : Nat
  sendBtn : Except PyExc Bool
  dSendBtn : Nat
  waitInput : Bool
  dWaitInput : Nat
  poll1 : Option String
  dPoll1 : Nat
  resendBtn : Bool
  dResendBtn : Nat
  poll2 : Option String
  dPoll2 : Nat
  relocExc : Option String
  relocVisible : Bool
  dReloc : Nat
  simClickExc : Option String
  simTypeExc : Option String
  dSim : Nat
  pressExc : Option String
  agreeVisible : Bool
  dAgree : Nat
  bizNavExc : Option String
  dNavBiz : Nat
  usernameDone : Bool
  dUsername : Nat
  reloadExc : Option String
  dReload : Nat
  extractNavExc : Option String
  dExtractNav : Nat
  cookiesExc : Option String
  dScreenshot : Nat

/-- The synchronous-Python monad: state threading plus exceptions, with
the state surviving a raise (side effects before the raise persist). -/
def AutoM (α : Type) : Type := FlowSt → Except PyExc α × FlowSt

def autoPure {α : Type} (a : α) : AutoM α := fun st => (Except.ok a, st)

def autoBind {α β : Type} (m : AutoM α) (f : α → AutoM β) : AutoM β := fun st =>
  match m st with
  | (Except.ok a, st') => f a st'
  | (Except.error e, st') => (Except.error e, st')

instance : Monad AutoM where
  pure := autoPure
  bind := autoBind

def sleepMs (n : Nat) : AutoM Unit := fun st =>
  (Except.ok (), { st with clock := st.clock + n })

def getClock : AutoM Nat := fun st => (Except.ok st.clock, st)

def recordEv (e : Event) : AutoM Unit := fun st =>
  (Except.ok (), { st with events := st.events ++ [e] })

def readUrlM (env : FlowEnv) : AutoM String := fun st =>
  (Except.ok (env.pageUrl st.clock), st)

/-- `datetime.now()` as epoch seconds: the environment's epoch at clock
zero plus the elapsed milliseconds, in seconds. -/
def nowEpochM (env : FlowEnv) : AutoM Int := fun st =>
  (Except.ok (env.epoch0 + ((st.clock / 1000 : Nat) : Int)), st)

/-- Run a remote operation whose outcome the environment fixes. -/
def liftE (o : Except PyExc Unit) : AutoM Unit := fun st => (o, st)

/-- Remote operation that raises an ordinary exception iff `o = some msg`. -/
def raiseIfSome (o : Option String) : AutoM Unit := fun st =>
  match o with
  | some m => (Except.error (.other m), st)
  | none => (Except.ok (), st)

/-- Python `try: body except Exception as e: handler e` — catches every
modelled exception (`TaskCancelledError` included, being an `Exception`
subclass). -/
def tryAll {α : Type} (body : AutoM α) (handler : PyExc → AutoM α) : AutoM α := fun st =>
  match body st with
  | (Except.ok a, st') => (Except.ok a, st')
  | (Except.error e, st') => handler e st'

/-- `try: body except TaskCancelledError: raise except Exception as e:
handler e` — the guard pattern of `login_and_extract` (lines 59-63). -/
def tryNonCancel {α : Type} (body : AutoM α) (handler : PyExc → AutoM α) : AutoM α :=
  fun st =>
    match body st with
    | (Except.ok a, st') => (Except.ok a, st')
    | (Except.error (.cancelled m), st') => (Except.error (.cancelled m), st')
    | (Except.error e, st') => handler e st'

/-- `try: body except PlaywrightTimeoutError: handler` (line 164-167). -/
def tryPwTimeout {α : Type} (body : AutoM α) (handler : String → AutoM α) : AutoM α :=
  fun st =>
    match body st with
    | (Except.ok a, st') => (Except.ok a, st')
    | (Except.error (.pwTimeout m), st') => handler m st'
    | (Except.error e, st') => (Except.error e, st')

/-- `try: body ... finally: fin` (lines 56-65; `fin` here never raises). -/
def tryFin {α : Type} (body : AutoM α) (fin : AutoM Unit) : AutoM α := fun st =>
  match body st with
  | (r, st') =>
    match fin st' with
    | (Except.ok _, st'') => (r, st'')
    | (Except.error e2, st'') => (Except.error e2, st'')

/-- `_log` (lines 553-561): invokes the callback if installed; re-raises
a `TaskCancelledError` from the callback, swallows any other exception
from it. -/
def logM (env : FlowEnv) (level msg : String) : AutoM Unit := fun st =>
  if env.hasLogCallback then
    let st' := { st with logCalls := st.logCalls + 1 }
    match env.logCb st.logCalls level msg with
    | .ok => (Except.ok (), st')
    | .cancel m => (Except.error (.cancelled m), st')
    | .fail _ => (Except.ok (), st')
  else (Except.ok (), st)

/-- A Playwright `Locator` handle, as produced by `page.locator(...).first`.
Playwright always returns a handle object (existence is only checked when
the locator is used), and the `Locator` class defines neither `__bool__`
nor `__len__`, so Python object truthiness makes every handle truthy. -/
inductive Locator where
  | ovqh0bInput
  | telInput
deriving DecidableEq, Repr

/-- Python `not locator` for a Playwright locator handle: always `false`
(default object truthiness — the handle is never `None`). -/
def locatorFalsy (_ : Locator) : Bool := false

/-- Oracle for `_click_send_code_button` (lines 297-349): records the
search, takes the leading `time.sleep(2)` plus an environment duration,
and yields the environment's outcome.  The helper's internal `_log` calls
sit both inside and outside its `try` blocks, so a callback-raised
cancellation can escape it: the outcome is a full `Except`. -/
def clickSendCodeButtonM (env : FlowEnv) : AutoM Bool := do
  recordEv .sendCodeSearch
  sleepMs (2000 + env.dSendBtn)
  fun st => (env.sendBtn, st)

/-- Oracle for `_wait_for_code_input` (lines 351-368): pure polling with
every probe exception swallowed and no log call, so it cannot raise. -/
def waitForCodeInputM (env : FlowEnv) : AutoM Bool := do
  recordEv .waitCodeInput
  sleepMs env.dWaitInput
  pure env.waitInput

/-- Oracle for the external `mail_client.poll_for_code` contract. -/
def pollForCodeM (env : FlowEnv) (since : Nat) (second : Bool) : AutoM (Option String) := do
  recordEv (.pollMail since)
  if second then do
    sleepMs env.dPoll2
    pure env.poll2
  else do
    sleepMs env.dPoll1
    pure env.poll1

/-- Oracle for `_click_resend_code_button` (lines 397-417): every
statement, log calls included, sits under `except Exception: pass`
handlers, so nothing — not even a cancellation — escapes; it returns a
plain boolean. -/
def clickResendCodeButtonM (env : FlowEnv) : AutoM Bool := do
  recordEv .resendSearch
  sleepMs (2000 + env.dResendBtn)
  pure env.resendBtn

/-- `_save_screenshot` (lines 543-551): best-effort, swallows everything. -/
def saveScreenshotM (env : FlowEnv) (name : String) : AutoM Unit := do
  recordEv (.screenshot name)
  sleepMs env.dScreenshot

/-- Oracle for `_handle_username_setup` (lines 440-501): its body wraps
every fallible statement (including its internal `_log` and simulator
calls) in handlers that return `False`, so it cannot raise. -/
def handleUsernameSetupM (env : FlowEnv) : AutoM Bool := do
  recordEv .usernameSetup
  sleepMs env.dUsername
  pure env.usernameDone

/-- `_handle_agreement_page` (lines 419-428): reads the URL, and under
`/admin/create` probes and clicks the agree button with all exceptions
swallowed; no log call, so it cannot raise. -/
def handleAgreementPageM (env : FlowEnv) : AutoM Unit := do
  let u ← readUrlM env
  if pyInStr "/admin/create" u then do
    sleepMs env.dAgree
    if env.agreeVisible then sleepMs 2000 else pure ()
  else pure ()

/-- `_simulate_human_input` (lines 370-395): click, type character by
character, then a success log — all inside `try`, so an exception from
any of them (including a cancellation raised by the success-path `_log`)
lands in the generic `except Exception` handler, which logs a warning and
returns `False`. -/
def simulateHumanInputM (env : FlowEnv) : AutoM Bool :=
  tryAll
    (do
      raiseIfSome env.simClickExc
      sleepMs env.dSim
      raiseIfSome env.simTypeExc
      sleepMs env.dSim
      logM env "info" "simulated human input successfully"
      pure true)
    (fun e => do
      logM env "warning" ("simulated input failed: " ++ pyExcStr e)
      pure false)

/-- `_wait_for_business_params` (lines 430-438): up to `fuel` one-second
probes of the URL; the success log can propagate a cancellation. -/
def waitForBusinessParamsM (env : FlowEnv) : Nat → AutoM Bool
  | 0 => pure false
  | n + 1 => do
    let u ← readUrlM env
    if pyInStr "csesidx=" u && pyInStr "/cid/" u then do
      logM env "info" ("business params ready: " ++ u)
      pure true
    else do
      sleepMs 1000
      waitForBusinessParamsM env n

/-- Line 173 / line 260: the already-authenticated check. -/
def hasBusinessParams (u : String) : Bool :=
  pyInStr "business.gemini.google" u && pyInStr "csesidx=" u && pyInStr "/cid/" u

/-- `_extract_config` in the monad: records the call, performs the
defensive navigation (plus `time.sleep(3)`) when the entry URL lacks
`cid/`, and otherwise delegates to the pure `extractConfigPure` on the
URLs read, the cookie jar and the current instant. -/
def extractConfigM (env : FlowEnv) (email : String) : AutoM ExtractOutcome := do
  recordEv .extractCalled
  let u0 ← readUrlM env
  if pyInStr "cid/" u0 then do
    let now ← nowEpochM env
    pure (extractConfigPure u0 u0 env.extractNavExc env.cookiesExc env.cookies now email).1
  else do
    recordEv (.navigate "https://business.gemini.google/")
    sleepMs (env.dExtractNav + 3000)
    let u1 ← readUrlM env
    let now ← nowEpochM env
    pure (extractConfigPure u0 u1 env.extractNavExc env.cookiesExc env.cookies now email).1

def authHomeUrl : String := "https://auth.business.gemini.google/"

/-- The login URL of line 162 (percent-encoding of the e-mail is
abstracted to the raw e-mail: no claim inspects this text). -/
def buildLoginUrl (email : String) : String :=
  "https://auth.business.gemini.google/login/email?continueUrl=https%3A%2F%2Fbusiness.gemini.google%2F&loginHint="
    ++ email ++ "&xsrfToken=KdLRzKwwBTD5wo8nUollAbY6cW0"

/-- Python `if b: m` as a statement (no else). -/
def whenB (b : Bool) (m : AutoM Unit) : AutoM Unit := if b then m else pure ()

/-- Step 12 (lines 282-291): wait for the URL parameters; on failure,
one `page.reload` plus settle sleep and a second wait.  Returns whether
the parameters appeared. -/
def paramsWaitWithRetryM (env : FlowEnv) : AutoM Bool := do
  let ok1 ← waitForBusinessParamsM env 30
  if ok1 then pure true
  else do
    logM env "warning" "URL parameters not generated, trying refresh"
    recordEv .reloadPage
    raiseIfSome env.reloadExc
    sleepMs (env.dReload + 5000)
    waitForBusinessParamsM env 30

/-- Steps 6-13 of `_run_flow` (lines 216-295), entered with the
verification code in hand: re-resolve the code input, enter and submit
the code, wait out the redirect, handle the agreement page, reach the
business page (navigating and running username setup as needed), wait for
the URL parameters, and extract. -/
def submitPhaseM (env : FlowEnv) (email code : String) : AutoM ExtractOutcome := do
  logM env "info" ("received verification code: " ++ code)
  let codeInput ← tryAll
    (do
      raiseIfSome env.relocExc
      sleepMs env.dReloc
      pure (if env.relocVisible then Locator.ovqh0bInput else Locator.telInput))
    (fun _ => pure Locator.telInput)
  if locatorFalsy codeInput then do
    logM env "error" "code input field expired"
    recordEv (.failAt .codeInputExpired)
    pure (.failure "code input expired")
  else do
    logM env "info" "entering verification code (simulating human input)..."
    let simOk ← simulateHumanInputM env
    whenB (!simOk) (do
      logM env "warning" "simulated input failed, falling back to direct input"
      sleepMs 500)
    logM env "info" "pressing Enter to submit code"
    raiseIfSome env.pressExc
    sleepMs 12000
    let u ← readUrlM env
    logM env "info" ("URL after verification: " ++ u)
    if pyInStr "verify-oob-code" u then do
      logM env "error" "verification code submission failed, still on verification page"
      saveScreenshotM env "verification_submit_failed"
      recordEv (.failAt .verifySubmitFailed)
      pure (.failure "verification code submission failed")
    else do
      handleAgreementPageM env
      let u2 ← readUrlM env
      if hasBusinessParams u2 then do
        logM env "info" "already on business page with parameters"
        extractConfigM env email
      else do
        whenB (!(pyInStr "business.gemini.google" u2)) (do
          logM env "info" "navigating to business page"
          recordEv (.navigate "https://business.gemini.google/")
          raiseIfSome env.bizNavExc
          sleepMs (env.dNavBiz + 5000)
          let u3 ← readUrlM env
          logM env "info" ("URL after navigation: " ++ u3))
        let u4 ← readUrlM env
        whenB (!(pyInStr "cid" u4)) (do
          let did ← handleUsernameSetupM env
          whenB did (sleepMs 5000))
        logM env "info" "waiting for URL parameters"
        let paramsOk ← paramsWaitWithRetryM env
        if paramsOk then do
          logM env "info" "login flow complete, extracting config..."
          extractConfigM env email
        else do
          logM env "error" "URL parameters generation failed"
          let uf ← readUrlM env
          logM env "error" ("final URL: " ++ uf)
          saveScreenshotM env "params_missing"
          recordEv (.failAt .paramsNotFound)
          pure (.failure "URL parameters not found")

/-- `_run_flow` (lines 126-295). -/
def runFlowM (env : FlowEnv) (email : String) : AutoM ExtractOutcome := do
  let sendTime ← getClock
  logM env "info" ("opening login page: " ++ email)
  recordEv (.navigate authHomeUrl)
  sleepMs env.dGotoHome
  liftE env.gotoHome
  sleepMs 2000
  tryAll
    (do
      logM env "info" "setting authentication Cookies..."
      raiseIfSome env.addCookiesExc
      logM env "info" "Cookies set successfully")
    (fun e => logM env "warning" ("failed to set Cookies: " ++ pyExcStr e))
  logM env "info" "navigating to login URL..."
  recordEv (.navigate (buildLoginUrl email))
  tryPwTimeout
    (do
      sleepMs env.dGotoLogin
      liftE env.gotoLogin)
    (fun _ => logM env "warning" "page load timeout, but continuing (page may already be loaded)")
  sleepMs 5000
  let currentUrl ← readUrlM env
  logM env "info" ("current URL: " ++ currentUrl)
  if hasBusinessParams currentUrl then do
    logM env "info" "already logged in, extracting config directly"
    extractConfigM env email
  else do
    logM env "info" "finding and clicking send code button..."
    let sendOk ← clickSendCodeButtonM env
    if !sendOk then do
      logM env "error" "send code button not found"
      saveScreenshotM env "send_code_button_missing"
      recordEv (.failAt .sendBtnMissing)
      pure (.failure "send code button not found")
    else do
      logM env "info" "waiting for code input field..."
      let found ← waitForCodeInputM env
      if !found then do
        logM env "error" "code input field not found"
        saveScreenshotM env "code_input_missing"
        recordEv (.failAt .codeInputMissing)
        pure (.failure "code input not found")
      else do
        logM env "info" "polling email for verification code..."
        let code1 ← pollForCodeM env sendTime false
        match code1 with
        | some c => submitPhaseM env email c
        | none => do
          logM env "warning" "verification code timeout, trying to resend..."
          let sendTime2 ← getClock
          let resendOk ← clickResendCodeButtonM env
          if resendOk then do
            logM env "info" "resend button clicked, waiting for new code..."
            let code2 ← pollForCodeM env sendTime2 true
            match code2 with
            | some c => submitPhaseM env email c
            | none => do
              logM env "error" "still no code after resend"
              saveScreenshotM env "code_timeout_after_resend"
              recordEv (.failAt .codeTimeoutAfterResend)
              pure (.failure "verification code timeout after resend")
          else do
            logM env "error" "code timeout and resend button not found"
            saveScreenshotM env "code_timeout"
            recordEv (.failAt .codeTimeout)
            pure (.failure "verification code timeout")

/-- `_connect` (lines 67-124) as an oracle: the environment fixes its
outcome (success, a propagated error, or a cancellation surfaced through
its internal logs — its `except` handlers re-raise whatever they catch). -/
def connectM (env : FlowEnv) : AutoM Unit := do
  sleepMs env.dConnect
  liftE env.connect

/-- `stop` (lines 41-52): best-effort teardown, swallows every error. -/
def stopM : AutoM Unit := recordEv .stopped

/-- The body of `login_and_extract`'s `try` (lines 56-58). -/
def innerM (env : FlowEnv) (email : String) : AutoM ExtractOutcome := do
  connectM env
  runFlowM env email

/-- `login_and_extract` (lines 54-65). -/
def loginAndExtractM (env : FlowEnv) (email : String) : AutoM ExtractOutcome :=
  tryFin
    (tryNonCancel (innerM env email)
      (fun e => do
        logM env "error" ("automation error: " ++ pyExcStr e)
        pure (.failure (pyExcStr e))))
    stopM

/-! ## Trace lemmas: which events a program fragment can append -/

/-- `m` only ever appends events satisfying `P` to the trace (whatever
the environment does, and also on the exceptional exit). -/
def AppendsOnly {α : Type} (m : AutoM α) (P : Event → Prop) : Prop :=
  ∀ st : FlowSt, ∃ δ : List Event, (m st).2.events = st.events ++ δ ∧ ∀ e ∈ δ, P e

/-- Events the post-code phase (steps 6-13) may append: none of the
code-request machinery, and never the `codeInputExpired` failure site. -/
def submitAllowed : Event → Prop := fun e =>
  match e with
  | .pollMail _ => False
  | .resendSearch => False
  | .sendCodeSearch => False
  | .waitCodeInput => False
  | .failAt .codeInputExpired => False
  | _ => True

/-! ## Poll-count bounds (C3: never a third poll) -/

def isPollEv : Event → Bool := fun e =>
  match e with
  | .pollMail _ => true
  | _ => false

/-- `m` adds at most `k` mail-poller invocations to the trace, whatever
the environment does, and also on the exceptional exit. -/
def PollAdds {α : Type} (m : AutoM α) (k : Nat) : Prop :=
  ∀ st : FlowSt, ((m st).2.events.countP isPollEv) ≤ st.events.countP isPollEv + k

/-- Sequence of `since_time` floors passed to the mail poller, in call
order. -/
def pollSinces (evs : List Event) : List Nat :=
  evs.filterMap (fun e =>
    match e with
    | .pollMail s => some s
    | _ => none)

/-- A benign environment: no log callback, both navigations succeed, the
send button is found, the code input appears, the first poll returns no
code, the resend button is found, the second poll returns no code either;
all operation durations zero, the page stays on the login URL. -/
def envBase : FlowEnv := {
  pageUrl := fun _ => "https://auth.business.gemini.google/login/email",
  cookies := [], epoch0 := 0, hasLogCallback := false, logCb := fun _ _ _ => LogOutcome.ok,
  connect := Except.ok (), dConnect := 0, gotoHome := Except.ok (), dGotoHome := 0,
  addCookiesExc := none, gotoLogin := Except.ok (), dGotoLogin := 0,
  sendBtn := Except.ok true, dSendBtn := 0, waitInput := true, dWaitInput := 0,
  poll1 := none, dPoll1 := 0, resendBtn := true, dResendBtn := 0,
  poll2 := none, dPoll2 := 0, relocExc := none, relocVisible := true, dReloc := 0,
  simClickExc := none, simTypeExc := none, dSim := 0, pressExc := none,
  agreeVisible := false, dAgree := 0, bizNavExc := none, dNavBiz := 0,
  usernameDone := false, dUsername := 0, reloadExc := none, dReload := 0,
  extractNavExc := none, dExtractNav := 0, cookiesExc := none, dScreenshot := 0 }

/-- An already-authenticated environment: the page carries the business
URL with both parameters from the start. -/
def envShort : FlowEnv := { envBase with
  pageUrl := fun _ => "https://business.gemini.google/cid/abc123?csesidx=xyz",
  cookies := [⟨"__Secure-C_SES", "tokenA", some 1735747200⟩] }

/-- The C5 counterexample environment: the first poll returns a code, the
page flips to the authenticated business URL after submission, and the
log callback raises the cancellation signal exactly during the
simulator's success-path log call (and at no other message). -/
def envCancelSim : FlowEnv := { envBase with
  hasLogCallback := true,
  logCb := fun _ _ msg =>
    if msg = "simulated human input successfully" then LogOutcome.cancel "task cancelled"
    else LogOutcome.ok,
  poll1 := some "123456",
  pageUrl := fun t =>
    if t < 10000 then "https://auth.business.gemini.google/login/email"
    else "https://business.gemini.google/cid/abc123?csesidx=xyz",
  cookies := [⟨"__Secure-C_SES", "tokenA", some 1735747200⟩] }

def envNoResend : FlowEnv := { envBase with resendBtn := false }

def envConnBoom : FlowEnv := { envBase with connect := Except.error (PyExc.other "boom") }

def envConnCancel : FlowEnv :=
  { envBase with connect := Except.error (PyExc.cancelled "stop") }

def envCbCancel : FlowEnv :=
  { envBase with hasLogCallback := true, logCb := fun _ _ _ => LogOutcome.cancel "c" }

theorem findSub_bound (sep : List Char) :
    ∀ (s : List Char) (i : Nat), findSub sep s = some i → i + sep.length ≤ s.length := by
  intro s
  induction s with
  | nil =>
    intro i h
    by_cases hsep : sep.isEmpty
    · simp [findSub, hsep] at h
      subst h
      simp [List.isEmpty_iff] at hsep
      simp [hsep]
    · simp [findSub, hsep] at h
  | cons b bs ih =>
    intro i h
    by_cases hp : sep.isPrefixOf (b :: bs)
    · simp [findSub, hp] at h
      subst h
      have : sep <+: (b :: bs) := by
        exact (List.isPrefixOf_iff_prefix).mp hp
      simpa using this.length_le
    · simp [findSub, hp] at h
      obtain ⟨j, hj, hij⟩ := h
      subst hij
      have := ih j hj
      simp only [List.length_cons]
      omega

theorem pySplitFuel_congr (c : Char) (cs : List Char) :
    ∀ (f1 f2 : Nat) (s : List Char), s.length ≤ f1 → s.length ≤ f2 →
      pySplitFuel c cs f1 s = pySplitFuel c cs f2 s := by
  intro f1
  induction f1 with
  | zero =>
    intro f2 s h1 _
    have hs : s = [] := List.eq_nil_of_length_eq_zero (Nat.le_zero.mp h1)
    subst hs
    cases f2 with
    | zero => rfl
    | succ f2 => simp [pySplitFuel, findSub]
  | succ f1 ih =>
    intro f2 s h1 h2
    cases f2 with
    | zero =>
      have hs : s = [] := List.eq_nil_of_length_eq_zero (Nat.le_zero.mp h2)
      subst hs
      simp [pySplitFuel, findSub]
    | succ f2 =>
      show pySplitFuel c cs (f1 + 1) s = pySplitFuel c cs (f2 + 1) s
      simp only [pySplitFuel]
      cases h : findSub (c :: cs) s with
      | none => rfl
      | some i =>
        have hb := findSub_bound (c :: cs) s i h
        simp only [List.length_cons] at hb
        have hlen : (s.drop (i + (cs.length + 1))).length ≤ f1 := by
          simp [List.length_drop]; omega
        have hlen2 : (s.drop (i + (cs.length + 1))).length ≤ f2 := by
          simp [List.length_drop]; omega
        dsimp only
        rw [ih f2 _ hlen hlen2]

/-- Canonical unfolding of `pySplitGo`. -/
theorem pySplitGo_eq (c : Char) (cs : List Char) (s : List Char) :
    pySplitGo c cs s =
      match findSub (c :: cs) s with
      | none => [s]
      | some i => s.take i :: pySplitGo c cs (s.drop (i + (cs.length + 1))) := by
  cases h : findSub (c :: cs) s with
  | none =>
    cases hs : s with
    | nil => simp [pySplitGo, pySplitFuel]
    | cons b bs =>
      subst hs
      simp only [pySplitGo, List.length_cons, pySplitFuel, h]
  | some i =>
    have hb := findSub_bound (c :: cs) s i h
    simp only [List.length_cons] at hb
    cases hs : s with
    | nil =>
      rw [hs] at hb
      simp at hb
    | cons b bs =>
      subst hs
      simp only [pySplitGo, List.length_cons, pySplitFuel, h]
      rw [pySplitFuel_congr c cs _ _ _ (by simp [List.length_drop]; omega)
        (Nat.le_refl _)]

/-! ## Structure lemmas about the Python split -/

theorem charIdx_nil (c : Char) : charIdx c [] = 0 := rfl

theorem charIdx_cons (c b : Char) (bs : List Char) :
    charIdx c (b :: bs) = if c = b then 0 else charIdx c bs + 1 := by
  by_cases hcb : c = b
  · simp [charIdx, findSub, List.isPrefixOf, hcb]
  · have hne : (c == b) = false := by simp [hcb]
    simp only [charIdx, findSub, List.isPrefixOf, hne, Bool.false_and, if_neg,
      Bool.false_eq_true, not_false_iff, List.length_cons]
    cases hf : findSub [c] bs with
    | none => simp [hf, hcb]
    | some j => simp [hf, hcb]

theorem charIdx_le_length (c : Char) (l : List Char) : charIdx c l ≤ l.length := by
  unfold charIdx
  cases hf : findSub [c] l with
  | none => simp
  | some i =>
    have := findSub_bound [c] l i hf
    simp at this ⊢
    omega

theorem subIdxOrLen_le_length (sep l : List Char) : subIdxOrLen sep l ≤ l.length := by
  unfold subIdxOrLen
  cases hf : findSub sep l with
  | none => simp
  | some i =>
    have := findSub_bound sep l i hf
    simp
    omega

theorem charIdx_take (c : Char) (l : List Char) :
    ∀ k : Nat, charIdx c (l.take k) = min (charIdx c l) (min k l.length) := by
  induction l with
  | nil => intro k; simp [charIdx_nil]
  | cons b bs ih =>
    intro k
    cases k with
    | zero => simp [charIdx_nil]
    | succ k =>
      simp only [List.take_succ_cons, charIdx_cons, List.length_cons]
      by_cases hcb : c = b
      · simp [hcb]
      · have h1 := ih k
        have h2 := charIdx_le_length c bs
        have h3 := charIdx_le_length c (bs.take k)
        simp only [if_neg hcb, h1]
        omega

/-- `split(sep)[0]`, i.e. the prefix of `s` before the first occurrence
of the (nonempty) separator. -/
theorem pySplit_head (c : Char) (cs : List Char) (s : List Char) :
    (pySplit (c :: cs) s).getD 0 [] = s.take (subIdxOrLen (c :: cs) s) := by
  rw [show pySplit (c :: cs) s = pySplitGo c cs s from rfl, pySplitGo_eq]
  cases h : findSub (c :: cs) s with
  | none => simp [subIdxOrLen, h]
  | some i => simp [subIdxOrLen, h]

/-- `split(sep)[1]` when the separator occurs at index `i`: the fragment
of `s` strictly between the first occurrence and the following cut
point. -/
theorem pySplit_getD_one (c : Char) (cs : List Char) (s : List Char) (i : Nat)
    (h : findSub (c :: cs) s = some i) :
    (pySplit (c :: cs) s).getD 1 [] =
      (s.drop (i + (cs.length + 1))).take
        (subIdxOrLen (c :: cs) (s.drop (i + (cs.length + 1)))) := by
  rw [show pySplit (c :: cs) s = pySplitGo c cs s from rfl, pySplitGo_eq, h]
  simpa using pySplit_head c cs (s.drop (i + (cs.length + 1)))

/-- The code's config-id parse, characterised: after the first `cid/`,
the code keeps exactly the characters up to the earliest of the next
`cid/`, the next `?` and the next `/`. -/
theorem pyConfigIdL_eq_amended (u : List Char) (h : (findSub "cid/".data u).isSome) :
    pyConfigIdL u = amendedConfigIdL u := by
  obtain ⟨i, hi⟩ := Option.isSome_iff_exists.mp h
  have hi' : findSub ('c' :: ['i', 'd', '/']) u = some i := hi
  unfold pyConfigIdL amendedConfigIdL
  rw [hi]
  dsimp only
  rw [pySplit_getD_one 'c' ['i', 'd', '/'] u i hi']
  have hlen : (['i', 'd', '/'] : List Char).length + 1 = 4 := rfl
  rw [hlen]
  set A := u.drop (i + 4) with hA
  set n1 := subIdxOrLen ('c' :: ['i', 'd', '/']) A with hn1
  have hq : (pySplit ['?'] (A.take n1)).getD 0 [] =
      (A.take n1).take (subIdxOrLen ['?'] (A.take n1)) := pySplit_head '?' [] (A.take n1)
  rw [hq]
  have hqc : subIdxOrLen ['?'] (A.take n1) = charIdx '?' (A.take n1) := rfl
  rw [hqc, charIdx_take, List.take_take]
  set q := charIdx '?' A with hqdef
  set m2 := min (min q (min n1 A.length)) n1 with hm2
  have hs : (pySplit ['/'] (A.take m2)).getD 0 [] =
      (A.take m2).take (subIdxOrLen ['/'] (A.take m2)) := pySplit_head '/' [] (A.take m2)
  rw [hs]
  have hsc : subIdxOrLen ['/'] (A.take m2) = charIdx '/' (A.take m2) := rfl
  rw [hsc, charIdx_take, List.take_take]
  have b1 : n1 ≤ A.length := by rw [hn1]; exact subIdxOrLen_le_length _ _
  have b2 : q ≤ A.length := by rw [hqdef]; exact charIdx_le_length _ _
  have b3 : charIdx '/' A ≤ A.length := charIdx_le_length _ _
  congr 1
  omega

/-- The code's session-index parse, characterised likewise. -/
theorem pyCsesidxL_eq_amended (u : List Char) (h : (findSub "csesidx=".data u).isSome) :
    pyCsesidxL u = amendedCsesidxL u := by
  obtain ⟨i, hi⟩ := Option.isSome_iff_exists.mp h
  have hi' : findSub ('c' :: ['s', 'e', 's', 'i', 'd', 'x', '=']) u = some i := hi
  unfold pyCsesidxL amendedCsesidxL
  rw [hi]
  dsimp only
  rw [pySplit_getD_one 'c' ['s', 'e', 's', 'i', 'd', 'x', '='] u i hi']
  have hlen : (['s', 'e', 's', 'i', 'd', 'x', '='] : List Char).length + 1 = 8 := rfl
  rw [hlen]
  set A := u.drop (i + 8) with hA
  set n1 := subIdxOrLen ('c' :: ['s', 'e', 's', 'i', 'd', 'x', '=']) A with hn1
  have hq : (pySplit ['&'] (A.take n1)).getD 0 [] =
      (A.take n1).take (subIdxOrLen ['&'] (A.take n1)) := pySplit_head '&' [] (A.take n1)
  rw [hq]
  have hqc : subIdxOrLen ['&'] (A.take n1) = charIdx '&' (A.take n1) := rfl
  rw [hqc, charIdx_take, List.take_take]
  have b1 : n1 ≤ A.length := by rw [hn1]; exact subIdxOrLen_le_length _ _
  have b2 : charIdx '&' A ≤ A.length := charIdx_le_length _ _
  congr 1
  omega

/-! ## Claims C1, C2, C6, C7: the credential extractor -/

/-- C1, counterexample: at the fixed instant cookie-expiry =
2025-01-02T00:00:00+08:00 the code's `expires_at` string is
`"2025-01-01 12:00:00"` (the `strftime` format on line 527 separates date
and time with a space), not the claimed `"2025-01-01T12:00:00"`. -/
theorem c1_counterexample :
    computeExpiresAt (some (epochOfCivilUTC8 2025 1 2 0 0 0)) 0 = "2025-01-01 12:00:00" ∧
    computeExpiresAt (some (epochOfCivilUTC8 2025 1 2 0 0 0)) 0 ≠ "2025-01-01T12:00:00" := by
  refine ⟨by decide, by decide⟩

/-- C1, amended: when the `__Secure-C_SES` cookie carries an expiry
instant, `expires_at` is that instant rendered in the fixed UTC+8 offset
minus 12 hours (hence an instant strictly before the cookie's true
expiry), independent of the current clock; when the cookie or its expiry
is absent, `expires_at` is the current instant in the same offset plus
12 hours (strictly in the future); and at the fixed instant cookie-expiry
= 2025-01-02T00:00:00+08:00 the output string is `"2025-01-01 12:00:00"`
(space-separated, not the `"2025-01-01T12:00:00"` the claim wrote). -/
theorem c1_expires_at :
    (∀ e n₁ n₂ : Int,
      computeExpiresAt (some e) n₁ = computeExpiresAt (some e) n₂ ∧
      computeExpiresAt (some e) n₁ = fmtUTC8 (e - 12 * 3600) ∧
      e - 12 * 3600 < e) ∧
    (∀ n : Int, computeExpiresAt none n = fmtUTC8 (n + 12 * 3600) ∧ n < n + 12 * 3600) ∧
    computeExpiresAt (some (epochOfCivilUTC8 2025 1 2 0 0 0)) 0 = "2025-01-01 12:00:00" := by
  refine ⟨fun e n₁ n₂ => ⟨rfl, rfl, by omega⟩, fun n => ⟨rfl, by omega⟩, by decide⟩

/-- C2, counterexample: against one fixed URL/cookie snapshot in which
the `__Secure-C_SES` cookie is absent, two runs of the extractor at
current clocks one second apart give different output dictionaries (the
`expires_at` fallback reads `datetime.now`). -/
theorem c2_counterexample :
    (extractConfigPure "https://business.gemini.google/cid/abc?csesidx=x"
        "https://business.gemini.google/cid/abc?csesidx=x" none none [] 0 "e").1 ≠
      (extractConfigPure "https://business.gemini.google/cid/abc?csesidx=x"
        "https://business.gemini.google/cid/abc?csesidx=x" none none [] 1 "e").1 := by
  decide

/-- C2, amended: extraction is idempotent whenever the `__Secure-C_SES`
cookie is present in the snapshot and carries an expiry: the output is
then a function of the URL/cookie snapshot alone, independent of the
current clock.  (When that cookie or its expiry is absent, `expires_at`
depends on the wall clock, and two runs agree only if they format the
same current second — the counterexample.) -/
theorem c2_idempotent (u0 u1 : String) (navE cookE : Option String)
    (cookies : List PwCookie) (email : String) (c : PwCookie) (e : Int) (n₁ n₂ : Int)
    (hfind : cookies.find? (fun k => k.name == "__Secure-C_SES") = some c)
    (hexp : c.expires = some e) :
    extractConfigPure u0 u1 navE cookE cookies n₁ email =
      extractConfigPure u0 u1 navE cookE cookies n₂ email := by
  have hcore : ∀ u : String,
      extractCore u cookE cookies n₁ email = extractCore u cookE cookies n₂ email := by
    intro u
    unfold extractCore
    rw [hfind]
    simp [hexp, computeExpiresAt]
  simp only [extractConfigPure, hcore]

/-- C2, witness for the amended theorem at a concrete snapshot. -/
theorem c2_witness :
    extractConfigPure "https://business.gemini.google/cid/abc?csesidx=x" "u" none none
        [⟨"__Secure-C_SES", "tok", some 1735747200⟩] 5 "e" =
      extractConfigPure "https://business.gemini.google/cid/abc?csesidx=x" "u" none none
        [⟨"__Secure-C_SES", "tok", some 1735747200⟩] 99 "e" :=
  c2_idempotent _ _ _ _ _ _ ⟨"__Secure-C_SES", "tok", some 1735747200⟩ 1735747200 5 99
    (by decide) rfl

/-- C6, counterexample: on the URL
`https://business.gemini.google/cid/abcid/x?csesidx=q` (which contains
`cid/`), the code's `split("cid/")[1]` also cuts at the second occurrence
of `cid/` hidden in `abcid/`, yielding `"ab"`, while the claimed rule
"segment after the first `cid/`, truncated at the next `?` or `/`" yields
`"abcid"`. -/
theorem c6_counterexample :
    pyInStr "cid/" "https://business.gemini.google/cid/abcid/x?csesidx=q" = true ∧
    pyConfigId "https://business.gemini.google/cid/abcid/x?csesidx=q" = "ab" ∧
    String.mk (claimConfigIdL "https://business.gemini.google/cid/abcid/x?csesidx=q".data) =
      "abcid" ∧
    pyConfigId "https://business.gemini.google/cid/abcid/x?csesidx=q" ≠
      String.mk (claimConfigIdL "https://business.gemini.google/cid/abcid/x?csesidx=q".data) := by
  refine ⟨by decide, by decide, by decide, by decide⟩

/-- C6, amended: for every URL containing `cid/`, the extracted
`config_id` is the text following the first occurrence of `cid/`
truncated at the earliest of the next occurrence of `cid/`, the next `?`
and the next `/`; and for every URL containing `csesidx=`, the extracted
`csesidx` is the text following the first occurrence of `csesidx=`
truncated at the earliest of the next occurrence of `csesidx=` and the
next `&` (the empty string when `csesidx=` is absent is the `else` branch
on line 515, kept by `extractCore`). -/
theorem c6_amended (url : String) :
    (pyInStr "cid/" url = true → pyConfigId url = amendedConfigId url) ∧
    (pyInStr "csesidx=" url = true → pyCsesidx url = amendedCsesidx url) := by
  constructor
  · intro h
    exact congrArg String.mk (pyConfigIdL_eq_amended url.data h)
  · intro h
    exact congrArg String.mk (pyCsesidxL_eq_amended url.data h)

/-- C6, witness for the amended theorem at a concrete URL. -/
theorem c6_witness :
    pyConfigId "https://business.gemini.google/cid/abc123?csesidx=xyz" =
      amendedConfigId "https://business.gemini.google/cid/abc123?csesidx=xyz" ∧
    pyCsesidx "https://business.gemini.google/cid/abc123?csesidx=xyz" =
      amendedCsesidx "https://business.gemini.google/cid/abc123?csesidx=xyz" :=
  ⟨(c6_amended _).1 (by decide), (c6_amended _).2 (by decide)⟩

/-- C7: the extractor performs no defensive navigation when the entry URL
contains `cid/` and exactly one when it does not; if after that single
navigation the URL still lacks `cid/` it returns the fixed structured
failure `"cid not found"`; an exception raised during the navigation is
caught and returned as a structured failure carrying the exception's
message, as is one raised by the cookie read (the model's extractor is a
total function: no exception escapes `_extract_config`). -/
theorem c7_extract_errors (u0 u1 : String) (navE cookE : Option String)
    (cookies : List PwCookie) (now : Int) (email : String) :
    (pyInStr "cid/" u0 = true →
      (extractConfigPure u0 u1 navE cookE cookies now email).2 = 0) ∧
    (pyInStr "cid/" u0 = false →
      (extractConfigPure u0 u1 navE cookE cookies now email).2 = 1) ∧
    (pyInStr "cid/" u0 = false → navE = none → pyInStr "cid/" u1 = false →
      (extractConfigPure u0 u1 navE cookE cookies now email).1 = .failure "cid not found") ∧
    (∀ m, pyInStr "cid/" u0 = false → navE = some m →
      (extractConfigPure u0 u1 navE cookE cookies now email).1 = .failure m) ∧
    (∀ m, pyInStr "cid/" u0 = true → cookE = some m →
      (extractConfigPure u0 u1 navE cookE cookies now email).1 = .failure m) := by
  refine ⟨?_, ?_, ?_, ?_, ?_⟩
  · intro h
    simp [extractConfigPure, h]
  · intro h
    unfold extractConfigPure
    rw [h]
    cases navE with
    | none =>
      by_cases h1 : pyInStr "cid/" u1 = true
      · simp [h1]
      · simp [h1]
    | some m => simp
  · intro h hn h1
    simp [extractConfigPure, h, hn, h1]
  · intro m h hn
    simp [extractConfigPure, h, hn]
  · intro m h hc
    simp [extractConfigPure, extractCore, h, hc]

/-- C7, witness: concrete failing-navigation and missing-`cid/` runs. -/
theorem c7_witness :
    (extractConfigPure "https://x" "https://y" (some "boom") none [] 0 "e").1 =
      .failure "boom" ∧
    (extractConfigPure "https://x" "https://y" none none [] 0 "e").1 =
      .failure "cid not found" ∧
    (extractConfigPure "https://x" "https://y" none none [] 0 "e").2 = 1 ∧
    (extractConfigPure "https://x/cid/a" "u" none (some "jar gone") [] 0 "e").1 =
      .failure "jar gone" :=
  ⟨(c7_extract_errors "https://x" "https://y" (some "boom") none [] 0 "e").2.2.2.1 "boom"
      (by decide) rfl,
   (c7_extract_errors "https://x" "https://y" none none [] 0 "e").2.2.1
      (by decide) rfl (by decide),
   (c7_extract_errors "https://x" "https://y" none none [] 0 "e").2.1 (by decide),
   (c7_extract_errors "https://x/cid/a" "u" none (some "jar gone") [] 0 "e").2.2.2.2
      "jar gone" (by decide) rfl⟩

theorem AutoM_bind_def {α β : Type} (m : AutoM α) (f : α → AutoM β) :
    m >>= f = autoBind m f := rfl

theorem AutoM_pure_def {α : Type} (a : α) : (pure a : AutoM α) = autoPure a := rfl

theorem ao_of_preserving {α : Type} {m : AutoM α} (P : Event → Prop)
    (h : ∀ st, (m st).2.events = st.events) : AppendsOnly m P := by
  intro st
  exact ⟨[], by simp [h st], by simp⟩

theorem ao_pure {α : Type} (a : α) (P : Event → Prop) : AppendsOnly (pure a : AutoM α) P :=
  ao_of_preserving P (fun _ => rfl)

theorem ao_autoPure {α : Type} (a : α) (P : Event → Prop) : AppendsOnly (autoPure a) P :=
  ao_of_preserving P (fun _ => rfl)

theorem ao_bind {α β : Type} {m : AutoM α} {f : α → AutoM β} {P : Event → Prop}
    (h1 : AppendsOnly m P) (h2 : ∀ a, AppendsOnly (f a) P) : AppendsOnly (m >>= f) P := by
  intro st
  rw [AutoM_bind_def]
  obtain ⟨δ₁, he₁, hp₁⟩ := h1 st
  unfold autoBind
  cases hm : m st with
  | mk r st₁ =>
    rw [hm] at he₁
    cases r with
    | ok a =>
      obtain ⟨δ₂, he₂, hp₂⟩ := h2 a st₁
      refine ⟨δ₁ ++ δ₂, ?_, ?_⟩
      · simp only []
        rw [he₂, he₁, List.append_assoc]
      · intro e he
        rcases List.mem_append.mp he with h | h
        · exact hp₁ e h
        · exact hp₂ e h
    | error ex => exact ⟨δ₁, he₁, hp₁⟩

theorem ao_sleepMs (n : Nat) (P : Event → Prop) : AppendsOnly (sleepMs n) P :=
  ao_of_preserving P (fun _ => rfl)

theorem ao_getClock (P : Event → Prop) : AppendsOnly getClock P :=
  ao_of_preserving P (fun _ => rfl)

theorem ao_readUrlM (env : FlowEnv) (P : Event → Prop) : AppendsOnly (readUrlM env) P :=
  ao_of_preserving P (fun _ => rfl)

theorem ao_nowEpochM (env : FlowEnv) (P : Event → Prop) : AppendsOnly (nowEpochM env) P :=
  ao_of_preserving P (fun _ => rfl)

theorem ao_liftE (o : Except PyExc Unit) (P : Event → Prop) : AppendsOnly (liftE o) P :=
  ao_of_preserving P (fun _ => rfl)

theorem ao_raiseIfSome (o : Option String) (P : Event → Prop) :
    AppendsOnly (raiseIfSome o) P := by
  refine ao_of_preserving P (fun st => ?_)
  unfold raiseIfSome
  cases o <;> rfl

theorem ao_logM (env : FlowEnv) (l m : String) (P : Event → Prop) :
    AppendsOnly (logM env l m) P := by
  refine ao_of_preserving P (fun st => ?_)
  unfold logM
  by_cases h : env.hasLogCallback
  · simp only [h, if_true]
    cases env.logCb st.logCalls l m <;> rfl
  · simp [h]

theorem ao_recordEv {e : Event} {P : Event → Prop} (he : P e) : AppendsOnly (recordEv e) P := by
  intro st
  exact ⟨[e], rfl, by simpa using he⟩

theorem ao_tryAll {α : Type} {body : AutoM α} {handler : PyExc → AutoM α} {P : Event → Prop}
    (h1 : AppendsOnly body P) (h2 : ∀ e, AppendsOnly (handler e) P) :
    AppendsOnly (tryAll body handler) P := by
  intro st
  unfold tryAll
  obtain ⟨δ₁, he₁, hp₁⟩ := h1 st
  cases hm : body st with
  | mk r st₁ =>
    rw [hm] at he₁
    cases r with
    | ok a => exact ⟨δ₁, he₁, hp₁⟩
    | error ex =>
      obtain ⟨δ₂, he₂, hp₂⟩ := h2 ex st₁
      refine ⟨δ₁ ++ δ₂, ?_, ?_⟩
      · simp only []
        rw [he₂, he₁, List.append_assoc]
      · intro e he
        rcases List.mem_append.mp he with h | h
        · exact hp₁ e h
        · exact hp₂ e h

theorem ao_tryPwTimeout {α : Type} {body : AutoM α} {handler : String → AutoM α}
    {P : Event → Prop} (h1 : AppendsOnly body P) (h2 : ∀ m, AppendsOnly (handler m) P) :
    AppendsOnly (tryPwTimeout body handler) P := by
  intro st
  unfold tryPwTimeout
  obtain ⟨δ₁, he₁, hp₁⟩ := h1 st
  cases hm : body st with
  | mk r st₁ =>
    rw [hm] at he₁
    cases r with
    | ok a => exact ⟨δ₁, he₁, hp₁⟩
    | error ex =>
      cases ex with
      | pwTimeout m =>
        obtain ⟨δ₂, he₂, hp₂⟩ := h2 m st₁
        refine ⟨δ₁ ++ δ₂, ?_, ?_⟩
        · simp only []
          rw [he₂, he₁, List.append_assoc]
        · intro e he
          rcases List.mem_append.mp he with h | h
          · exact hp₁ e h
          · exact hp₂ e h
      | cancelled m => exact ⟨δ₁, he₁, hp₁⟩
      | other m => exact ⟨δ₁, he₁, hp₁⟩

theorem ao_ite {α : Type} {c : Prop} [Decidable c] {m1 m2 : AutoM α} {P : Event → Prop}
    (h1 : AppendsOnly m1 P) (h2 : AppendsOnly m2 P) : AppendsOnly (if c then m1 else m2) P := by
  by_cases h : c
  · simpa [h] using h1
  · simpa [h] using h2

/-- The extractor only appends its call marker and (possibly) the single
defensive navigation. -/
theorem ao_extract (env : FlowEnv) (email : String) :
    AppendsOnly (extractConfigM env email)
      (fun e => e = .extractCalled ∨ e = .navigate "https://business.gemini.google/") := by
  unfold extractConfigM
  refine ao_bind (ao_recordEv (Or.inl rfl)) fun _ => ?_
  refine ao_bind (ao_readUrlM env _) fun u0 => ?_
  refine ao_ite ?_ ?_
  · exact ao_bind (ao_nowEpochM env _) fun _ => ao_pure _ _
  · refine ao_bind (ao_recordEv (Or.inr rfl)) fun _ => ?_
    refine ao_bind (ao_sleepMs _ _) fun _ => ?_
    refine ao_bind (ao_readUrlM env _) fun u1 => ?_
    exact ao_bind (ao_nowEpochM env _) fun _ => ao_pure _ _

theorem ao_mono {α : Type} {m : AutoM α} {P Q : Event → Prop}
    (h : AppendsOnly m P) (hpq : ∀ e, P e → Q e) : AppendsOnly m Q := by
  intro st
  obtain ⟨δ, he, hp⟩ := h st
  exact ⟨δ, he, fun e hm => hpq e (hp e hm)⟩

theorem ao_simulate (env : FlowEnv) (P : Event → Prop) :
    AppendsOnly (simulateHumanInputM env) P := by
  unfold simulateHumanInputM
  refine ao_tryAll ?_ fun e => ?_
  · refine ao_bind (ao_raiseIfSome _ _) fun _ => ?_
    refine ao_bind (ao_sleepMs _ _) fun _ => ?_
    refine ao_bind (ao_raiseIfSome _ _) fun _ => ?_
    refine ao_bind (ao_sleepMs _ _) fun _ => ?_
    exact ao_bind (ao_logM env _ _ _) fun _ => ao_pure _ _
  · exact ao_bind (ao_logM env _ _ _) fun _ => ao_pure _ _

theorem ao_waitParams (env : FlowEnv) (P : Event → Prop) :
    ∀ n, AppendsOnly (waitForBusinessParamsM env n) P := by
  intro n
  induction n with
  | zero => exact ao_pure _ _
  | succ n ih =>
    show AppendsOnly (waitForBusinessParamsM env (n + 1)) P
    unfold waitForBusinessParamsM
    refine ao_bind (ao_readUrlM env _) fun u => ?_
    refine ao_ite ?_ ?_
    · exact ao_bind (ao_logM env _ _ _) fun _ => ao_pure _ _
    · exact ao_bind (ao_sleepMs _ _) fun _ => ih

theorem ao_agreement (env : FlowEnv) (P : Event → Prop) :
    AppendsOnly (handleAgreementPageM env) P := by
  unfold handleAgreementPageM
  refine ao_bind (ao_readUrlM env _) fun u => ?_
  refine ao_ite ?_ (ao_pure _ _)
  refine ao_bind (ao_sleepMs _ _) fun _ => ?_
  exact ao_ite (ao_sleepMs _ _) (ao_pure _ _)

theorem ao_whenB {b : Bool} {m : AutoM Unit} {P : Event → Prop}
    (h : AppendsOnly m P) : AppendsOnly (whenB b m) P := by
  unfold whenB
  exact ao_ite h (ao_pure _ _)

theorem ao_clickSendBtn (env : FlowEnv) :
    AppendsOnly (clickSendCodeButtonM env) (fun e => e = .sendCodeSearch) := by
  unfold clickSendCodeButtonM
  refine ao_bind (ao_recordEv rfl) fun _ => ?_
  refine ao_bind (ao_sleepMs _ _) fun _ => ?_
  exact ao_of_preserving _ (fun _ => rfl)

theorem ao_waitInputM (env : FlowEnv) :
    AppendsOnly (waitForCodeInputM env) (fun e => e = .waitCodeInput) := by
  unfold waitForCodeInputM
  refine ao_bind (ao_recordEv rfl) fun _ => ?_
  exact ao_bind (ao_sleepMs _ _) fun _ => ao_pure _ _

theorem ao_pollM (env : FlowEnv) (since : Nat) (second : Bool) :
    AppendsOnly (pollForCodeM env since second) (fun e => e = .pollMail since) := by
  unfold pollForCodeM
  refine ao_bind (ao_recordEv rfl) fun _ => ?_
  exact ao_ite (ao_bind (ao_sleepMs _ _) fun _ => ao_pure _ _)
    (ao_bind (ao_sleepMs _ _) fun _ => ao_pure _ _)

theorem ao_resendM (env : FlowEnv) :
    AppendsOnly (clickResendCodeButtonM env) (fun e => e = .resendSearch) := by
  unfold clickResendCodeButtonM
  refine ao_bind (ao_recordEv rfl) fun _ => ?_
  exact ao_bind (ao_sleepMs _ _) fun _ => ao_pure _ _

theorem ao_screenshotM (env : FlowEnv) (name : String) :
    AppendsOnly (saveScreenshotM env name) (fun e => e = .screenshot name) := by
  unfold saveScreenshotM
  refine ao_bind (ao_recordEv rfl) fun _ => ?_
  exact ao_sleepMs _ _

theorem ao_usernameM (env : FlowEnv) :
    AppendsOnly (handleUsernameSetupM env) (fun e => e = .usernameSetup) := by
  unfold handleUsernameSetupM
  refine ao_bind (ao_recordEv rfl) fun _ => ?_
  exact ao_bind (ao_sleepMs _ _) fun _ => ao_pure _ _

theorem ao_submitPhase (env : FlowEnv) (email code : String) :
    AppendsOnly (submitPhaseM env email code) submitAllowed := by
  unfold submitPhaseM
  refine ao_bind (ao_logM env _ _ _) fun _ => ?_
  refine ao_bind ?_ fun codeInput => ?_
  · refine ao_tryAll ?_ fun _ => ao_pure _ _
    refine ao_bind (ao_raiseIfSome _ _) fun _ => ?_
    exact ao_bind (ao_sleepMs _ _) fun _ => ao_pure _ _
  · simp only [locatorFalsy, Bool.false_eq_true, if_false]
    refine ao_bind (ao_logM env _ _ _) fun _ => ?_
    refine ao_bind (ao_simulate env _) fun simOk => ?_
    refine ao_bind ?_ fun _ => ?_
    · exact ao_whenB (ao_bind (ao_logM env _ _ _) fun _ => ao_sleepMs _ _)
    · refine ao_bind (ao_logM env _ _ _) fun _ => ?_
      refine ao_bind (ao_raiseIfSome _ _) fun _ => ?_
      refine ao_bind (ao_sleepMs _ _) fun _ => ?_
      refine ao_bind (ao_readUrlM env _) fun u => ?_
      refine ao_bind (ao_logM env _ _ _) fun _ => ?_
      refine ao_ite ?_ ?_
      · refine ao_bind (ao_logM env _ _ _) fun _ => ?_
        refine ao_bind (ao_mono (ao_screenshotM env _) (fun e he => by subst he; trivial))
          fun _ => ?_
        exact ao_bind (ao_recordEv (by trivial)) fun _ => ao_pure _ _
      · refine ao_bind (ao_agreement env _) fun _ => ?_
        refine ao_bind (ao_readUrlM env _) fun u2 => ?_
        refine ao_ite ?_ ?_
        · refine ao_bind (ao_logM env _ _ _) fun _ => ?_
          exact ao_mono (ao_extract env email) (fun e he => by
            rcases he with rfl | rfl <;> trivial)
        · refine ao_bind ?_ fun _ => ?_
          · refine ao_whenB ?_
            refine ao_bind (ao_logM env _ _ _) fun _ => ?_
            refine ao_bind (ao_recordEv (by trivial)) fun _ => ?_
            refine ao_bind (ao_raiseIfSome _ _) fun _ => ?_
            refine ao_bind (ao_sleepMs _ _) fun _ => ?_
            refine ao_bind (ao_readUrlM env _) fun u3 => ?_
            exact ao_logM env _ _ _
          · refine ao_bind (ao_readUrlM env _) fun u4 => ?_
            refine ao_bind ?_ fun _ => ?_
            · refine ao_whenB ?_
              refine ao_bind (ao_mono (ao_usernameM env) (fun e he => by subst he; trivial))
                fun did => ?_
              exact ao_whenB (ao_sleepMs _ _)
            · refine ao_bind (ao_logM env _ _ _) fun _ => ?_
              refine ao_bind ?_ fun paramsOk => ?_
              · unfold paramsWaitWithRetryM
                refine ao_bind (ao_waitParams env _ 30) fun ok1 => ?_
                refine ao_ite (ao_pure _ _) ?_
                refine ao_bind (ao_logM env _ _ _) fun _ => ?_
                refine ao_bind (ao_recordEv (by trivial)) fun _ => ?_
                refine ao_bind (ao_raiseIfSome _ _) fun _ => ?_
                refine ao_bind (ao_sleepMs _ _) fun _ => ?_
                exact ao_waitParams env _ 30
              · refine ao_ite ?_ ?_
                · refine ao_bind (ao_logM env _ _ _) fun _ => ?_
                  exact ao_mono (ao_extract env email) (fun e he => by
                    rcases he with rfl | rfl <;> trivial)
                · refine ao_bind (ao_logM env _ _ _) fun _ => ?_
                  refine ao_bind (ao_readUrlM env _) fun uf => ?_
                  refine ao_bind (ao_logM env _ _ _) fun _ => ?_
                  refine ao_bind (ao_mono (ao_screenshotM env _)
                    (fun e he => by subst he; trivial)) fun _ => ?_
                  exact ao_bind (ao_recordEv (by trivial)) fun _ => ao_pure _ _

theorem submitAllowed_ne_expired (e : Event) (he : submitAllowed e) :
    e ≠ .failAt .codeInputExpired := by
  intro h
  subst h
  exact he

/-- C10's walk: the whole of `_run_flow` never records the
`codeInputExpired` failure site — the guard `if not code_input` on line
226 tests a Playwright locator handle, which is always truthy, so the
branch is dead. -/
theorem ao_runFlow (env : FlowEnv) (email : String) :
    AppendsOnly (runFlowM env email) (fun e => e ≠ .failAt .codeInputExpired) := by
  unfold runFlowM
  refine ao_bind (ao_getClock _) fun sendTime => ?_
  refine ao_bind (ao_logM env _ _ _) fun _ => ?_
  refine ao_bind (ao_recordEv (by simp)) fun _ => ?_
  refine ao_bind (ao_sleepMs _ _) fun _ => ?_
  refine ao_bind (ao_liftE _ _) fun _ => ?_
  refine ao_bind (ao_sleepMs _ _) fun _ => ?_
  refine ao_bind ?_ fun _ => ?_
  · refine ao_tryAll ?_ fun e => ao_logM env _ _ _
    refine ao_bind (ao_logM env _ _ _) fun _ => ?_
    exact ao_bind (ao_raiseIfSome _ _) fun _ => ao_logM env _ _ _
  · refine ao_bind (ao_logM env _ _ _) fun _ => ?_
    refine ao_bind (ao_recordEv (by simp)) fun _ => ?_
    refine ao_bind ?_ fun _ => ?_
    · refine ao_tryPwTimeout ?_ fun _ => ao_logM env _ _ _
      exact ao_bind (ao_sleepMs _ _) fun _ => ao_liftE _ _
    · refine ao_bind (ao_sleepMs _ _) fun _ => ?_
      refine ao_bind (ao_readUrlM env _) fun currentUrl => ?_
      refine ao_bind (ao_logM env _ _ _) fun _ => ?_
      refine ao_ite ?_ ?_
      · refine ao_bind (ao_logM env _ _ _) fun _ => ?_
        exact ao_mono (ao_extract env email) (fun e he => by
          rcases he with rfl | rfl <;> simp)
      · refine ao_bind (ao_logM env _ _ _) fun _ => ?_
        refine ao_bind (ao_mono (ao_clickSendBtn env) (fun e he => by subst he; simp))
          fun sendOk => ?_
        refine ao_ite ?_ ?_
        · refine ao_bind (ao_logM env _ _ _) fun _ => ?_
          refine ao_bind (ao_mono (ao_screenshotM env _) (fun e he => by subst he; simp))
            fun _ => ?_
          exact ao_bind (ao_recordEv (by simp)) fun _ => ao_pure _ _
        · refine ao_bind (ao_logM env _ _ _) fun _ => ?_
          refine ao_bind (ao_mono (ao_waitInputM env) (fun e he => by subst he; simp))
            fun found => ?_
          refine ao_ite ?_ ?_
          · refine ao_bind (ao_logM env _ _ _) fun _ => ?_
            refine ao_bind (ao_mono (ao_screenshotM env _) (fun e he => by subst he; simp))
              fun _ => ?_
            exact ao_bind (ao_recordEv (by simp)) fun _ => ao_pure _ _
          · refine ao_bind (ao_logM env _ _ _) fun _ => ?_
            refine ao_bind (ao_mono (ao_pollM env sendTime false)
              (fun e he => by subst he; simp)) fun code1 => ?_
            cases code1 with
            | some c => exact ao_mono (ao_submitPhase env email c) submitAllowed_ne_expired
            | none =>
              refine ao_bind (ao_logM env _ _ _) fun _ => ?_
              refine ao_bind (ao_getClock _) fun sendTime2 => ?_
              refine ao_bind (ao_mono (ao_resendM env) (fun e he => by subst he; simp))
                fun resendOk => ?_
              refine ao_ite ?_ ?_
              · refine ao_bind (ao_logM env _ _ _) fun _ => ?_
                refine ao_bind (ao_mono (ao_pollM env sendTime2 true)
                  (fun e he => by subst he; simp)) fun code2 => ?_
                cases code2 with
                | some c => exact ao_mono (ao_submitPhase env email c) submitAllowed_ne_expired
                | none =>
                  refine ao_bind (ao_logM env _ _ _) fun _ => ?_
                  refine ao_bind (ao_mono (ao_screenshotM env _)
                    (fun e he => by subst he; simp)) fun _ => ?_
                  exact ao_bind (ao_recordEv (by simp)) fun _ => ao_pure _ _
              · refine ao_bind (ao_logM env _ _ _) fun _ => ?_
                refine ao_bind (ao_mono (ao_screenshotM env _)
                  (fun e he => by subst he; simp)) fun _ => ?_
                exact ao_bind (ao_recordEv (by simp)) fun _ => ao_pure _ _

theorem pa_of_ao {α : Type} {m : AutoM α} {P : Event → Prop}
    (h : AppendsOnly m P) (hnp : ∀ e, P e → isPollEv e = false) : PollAdds m 0 := by
  intro st
  obtain ⟨δ, he, hp⟩ := h st
  rw [he, List.countP_append]
  have : δ.countP isPollEv = 0 := by
    rw [List.countP_eq_zero]
    intro e hm
    simp [hnp e (hp e hm)]
  omega

theorem pa_bind {α β : Type} (k1 k2 : Nat) {m : AutoM α} {f : α → AutoM β}
    (h1 : PollAdds m k1) (h2 : ∀ a, PollAdds (f a) k2) : PollAdds (m >>= f) (k1 + k2) := by
  intro st
  rw [AutoM_bind_def]
  unfold autoBind
  have hm1 := h1 st
  cases hm : m st with
  | mk r st₁ =>
    rw [hm] at hm1
    dsimp only at hm1
    cases r with
    | ok a =>
      have hm2 := h2 a st₁
      dsimp only
      omega
    | error ex =>
      dsimp only
      omega

theorem pa_ite {α : Type} (k : Nat) {c : Prop} [Decidable c] {m1 m2 : AutoM α}
    (h1 : PollAdds m1 k) (h2 : PollAdds m2 k) : PollAdds (if c then m1 else m2) k := by
  by_cases h : c
  · simpa [h] using h1
  · simpa [h] using h2

theorem pa_mono {α : Type} {m : AutoM α} {k k' : Nat} (h : PollAdds m k) (hk : k ≤ k') :
    PollAdds m k' := by
  intro st
  have := h st
  omega

theorem pa_pollM (env : FlowEnv) (since : Nat) (second : Bool) :
    PollAdds (pollForCodeM env since second) 1 := by
  intro st
  unfold pollForCodeM
  rw [AutoM_bind_def]
  unfold autoBind recordEv
  cases second with
  | true =>
    simp [AutoM_bind_def, autoBind, sleepMs, AutoM_pure_def, autoPure,
      List.countP_append, isPollEv]
  | false =>
    simp [AutoM_bind_def, autoBind, sleepMs, AutoM_pure_def, autoPure,
      List.countP_append, isPollEv]

theorem pa_submitPhase (env : FlowEnv) (email code : String) :
    PollAdds (submitPhaseM env email code) 0 :=
  pa_of_ao (ao_submitPhase env email code)
    (fun e he => by cases e with
      | pollMail s => exact absurd he (by simp [submitAllowed])
      | _ => rfl)

/-- C3's global safety walk: one run of `_run_flow` invokes the mail
poller at most twice, over every environment, on every path, exceptional
exits included. -/
theorem pa_runFlow (env : FlowEnv) (email : String) : PollAdds (runFlowM env email) 2 := by
  unfold runFlowM
  have p0log : ∀ l m, PollAdds (logM env l m) 0 :=
    fun l m => pa_of_ao (ao_logM env l m (fun _ => False)) (fun e he => absurd he id)
  have p0sleep : ∀ n, PollAdds (sleepMs n) 0 :=
    fun n => pa_of_ao (ao_sleepMs n (fun _ => False)) (fun e he => absurd he id)
  have p0pres : ∀ {α : Type} (m : AutoM α), (∀ st, (m st).2.events = st.events) →
      PollAdds m 0 :=
    fun m hp => pa_of_ao (ao_of_preserving (fun _ => False) hp) (fun e he => absurd he id)
  have p0rec : ∀ e, isPollEv e = false → PollAdds (recordEv e) 0 :=
    fun e he => pa_of_ao (ao_recordEv (P := fun x => x = e) rfl)
      (fun x hx => by subst hx; exact he)
  refine pa_bind 0 2 (p0pres getClock fun _ => rfl) fun sendTime => ?_
  refine pa_bind 0 2 (p0log _ _) fun _ => ?_
  refine pa_bind 0 2 (p0rec _ rfl) fun _ => ?_
  refine pa_bind 0 2 (p0sleep _) fun _ => ?_
  refine pa_bind 0 2 (p0pres (liftE _) fun _ => rfl) fun _ => ?_
  refine pa_bind 0 2 (p0sleep _) fun _ => ?_
  refine pa_bind 0 2 ?_ fun _ => ?_
  · refine pa_of_ao (P := fun _ => False) ?_ (fun e he => absurd he id)
    refine ao_tryAll ?_ fun e => ao_logM env _ _ _
    refine ao_bind (ao_logM env _ _ _) fun _ => ?_
    exact ao_bind (ao_raiseIfSome _ _) fun _ => ao_logM env _ _ _
  · refine pa_bind 0 2 (p0log _ _) fun _ => ?_
    refine pa_bind 0 2 (p0rec _ rfl) fun _ => ?_
    refine pa_bind 0 2 ?_ fun _ => ?_
    · refine pa_of_ao (P := fun _ => False) ?_ (fun e he => absurd he id)
      refine ao_tryPwTimeout ?_ fun _ => ao_logM env _ _ _
      exact ao_bind (ao_sleepMs _ _) fun _ => ao_liftE _ _
    · refine pa_bind 0 2 (p0sleep _) fun _ => ?_
      refine pa_bind 0 2 (p0pres (readUrlM env) fun _ => rfl) fun currentUrl => ?_
      refine pa_bind 0 2 (p0log _ _) fun _ => ?_
      refine pa_ite 2 ?_ ?_
      · refine pa_mono ?_ (by omega : (0 : Nat) ≤ 2)
        refine pa_bind 0 0 (p0log _ _) fun _ => ?_
        exact pa_of_ao (ao_extract env email)
          (fun e he => by rcases he with rfl | rfl <;> rfl)
      · refine pa_bind 0 2 (p0log _ _) fun _ => ?_
        refine pa_bind 0 2 ?_ fun sendOk => ?_
        · exact pa_of_ao (ao_clickSendBtn env) (fun e he => by subst he; rfl)
        · refine pa_ite 2 ?_ ?_
          · refine pa_mono ?_ (by omega : (0 : Nat) ≤ 2)
            refine pa_bind 0 0 (p0log _ _) fun _ => ?_
            refine pa_bind 0 0 ?_ fun _ => ?_
            · exact pa_of_ao (ao_screenshotM env _) (fun e he => by subst he; rfl)
            · exact pa_bind 0 0 (p0rec _ rfl) fun _ =>
                p0pres (pure _) fun _ => rfl
          · refine pa_bind 0 2 (p0log _ _) fun _ => ?_
            refine pa_bind 0 2 ?_ fun found => ?_
            · exact pa_of_ao (ao_waitInputM env) (fun e he => by subst he; rfl)
            · refine pa_ite 2 ?_ ?_
              · refine pa_mono ?_ (by omega : (0 : Nat) ≤ 2)
                refine pa_bind 0 0 (p0log _ _) fun _ => ?_
                refine pa_bind 0 0 ?_ fun _ => ?_
                · exact pa_of_ao (ao_screenshotM env _) (fun e he => by subst he; rfl)
                · exact pa_bind 0 0 (p0rec _ rfl) fun _ =>
                    p0pres (pure _) fun _ => rfl
              · refine pa_bind 0 2 (p0log _ _) fun _ => ?_
                refine pa_bind 1 1 (pa_pollM env sendTime false) fun code1 => ?_
                cases code1 with
                | some c => exact pa_mono (pa_submitPhase env email c) (by omega)
                | none =>
                  refine pa_bind 0 1 (p0log _ _) fun _ => ?_
                  refine pa_bind 0 1 (p0pres getClock fun _ => rfl) fun sendTime2 => ?_
                  refine pa_bind 0 1 ?_ fun resendOk => ?_
                  · exact pa_of_ao (ao_resendM env) (fun e he => by subst he; rfl)
                  · refine pa_ite 1 ?_ ?_
                    · refine pa_bind 0 1 (p0log _ _) fun _ => ?_
                      refine pa_bind 1 0 (pa_pollM env sendTime2 true) fun code2 => ?_
                      cases code2 with
                      | some c => exact pa_submitPhase env email c
                      | none =>
                        refine pa_bind 0 0 (p0log _ _) fun _ => ?_
                        refine pa_bind 0 0 ?_ fun _ => ?_
                        · exact pa_of_ao (ao_screenshotM env _) (fun e he => by subst he; rfl)
                        · exact pa_bind 0 0 (p0rec _ rfl) fun _ =>
                            p0pres (pure _) fun _ => rfl
                    · refine pa_mono ?_ (by omega : (0 : Nat) ≤ 1)
                      refine pa_bind 0 0 (p0log _ _) fun _ => ?_
                      refine pa_bind 0 0 ?_ fun _ => ?_
                      · exact pa_of_ao (ao_screenshotM env _) (fun e he => by subst he; rfl)
                      · exact pa_bind 0 0 (p0rec _ rfl) fun _ =>
                          p0pres (pure _) fun _ => rfl

/-- C10: the code-entry step's guard `if not code_input` (line 226) can
never fire: `page.locator(...).first` yields a Playwright locator handle
on every path of the `try/except` (never `None`), handles are always
truthy, and so no run of the flow ever records the `codeInputExpired`
failure site (reaches the `{"success": False, "error": "code input
expired"}` return) — over every environment, initial state and path,
exceptional exits included. -/
theorem c10_code_input_guard_dead (env : FlowEnv) (email : String) (st : FlowSt) :
    ((runFlowM env email) st).2.events.countP
        (fun e => decide (e = Event.failAt FailSite.codeInputExpired)) =
      st.events.countP (fun e => decide (e = Event.failAt FailSite.codeInputExpired)) := by
  obtain ⟨δ, he, hp⟩ := ao_runFlow env email st
  rw [he, List.countP_append]
  have hz : δ.countP (fun e => decide (e = Event.failAt FailSite.codeInputExpired)) = 0 := by
    rw [List.countP_eq_zero]
    intro e hm
    simpa using hp e hm
  omega

theorem extract_called_mem (env : FlowEnv) (email : String) (st : FlowSt) :
    Event.extractCalled ∈ ((extractConfigM env email) st).2.events := by
  unfold extractConfigM
  simp only [AutoM_bind_def, autoBind, recordEv, readUrlM, nowEpochM, sleepMs,
    AutoM_pure_def, autoPure]
  by_cases h : pyInStr "cid/" (env.pageUrl st.clock) = true
  · simp [h, autoBind, autoPure, nowEpochM, recordEv, sleepMs, readUrlM]
  · simp [h, autoBind, autoPure, nowEpochM, recordEv, sleepMs, readUrlM]

/-- C8: when, at the step-2 check after the login navigation, the URL is
on the business domain with both `csesidx=` and `/cid/` present, the flow
hands off directly to the credential extractor (first conjunct: the run
is literally the extractor run from the post-navigation state, whose
trace extends the prefix by the two initial navigations only), so the
completed run performs no send-button search, no code-input wait, no mail
poll and no username setup, and does reach extraction.  Hypotheses: the
log callback does not raise (a cancellation would abort any run), the two
navigations succeed (a failed `page.goto` raises out of the flow before
the check), and cookie installation does not raise. -/
theorem c8_short_circuit (env : FlowEnv) (email : String) (st : FlowSt)
    (Hcb : ∀ i l m, env.logCb i l m = LogOutcome.ok)
    (Hhome : env.gotoHome = Except.ok ())
    (Hck : env.addCookiesExc = none)
    (Hlogin : env.gotoLogin = Except.ok ())
    (Hbiz : hasBusinessParams
      (env.pageUrl (st.clock + env.dGotoHome + 2000 + env.dGotoLogin + 5000)) = true) :
    runFlowM env email st = extractConfigM env email
      ⟨st.clock + env.dGotoHome + 2000 + env.dGotoLogin + 5000,
       if env.hasLogCallback then st.logCalls + 6 else st.logCalls,
       st.events ++ [Event.navigate authHomeUrl, Event.navigate (buildLoginUrl email)]⟩ ∧
    ((runFlowM env email) st).2.events.countP (fun e => decide (e = Event.sendCodeSearch)) =
      st.events.countP (fun e => decide (e = Event.sendCodeSearch)) ∧
    ((runFlowM env email) st).2.events.countP (fun e => decide (e = Event.waitCodeInput)) =
      st.events.countP (fun e => decide (e = Event.waitCodeInput)) ∧
    ((runFlowM env email) st).2.events.countP isPollEv = st.events.countP isPollEv ∧
    ((runFlowM env email) st).2.events.countP (fun e => decide (e = Event.usernameSetup)) =
      st.events.countP (fun e => decide (e = Event.usernameSetup)) ∧
    Event.extractCalled ∈ ((runFlowM env email) st).2.events := by
  have hand : runFlowM env email st = extractConfigM env email
      ⟨st.clock + env.dGotoHome + 2000 + env.dGotoLogin + 5000,
       if env.hasLogCallback then st.logCalls + 6 else st.logCalls,
       st.events ++ [Event.navigate authHomeUrl, Event.navigate (buildLoginUrl email)]⟩ := by
    by_cases hlc : env.hasLogCallback
    · simp only [runFlowM, AutoM_bind_def, autoBind, AutoM_pure_def, autoPure, sleepMs,
        getClock, recordEv, readUrlM, liftE, raiseIfSome, tryAll, tryPwTimeout, logM,
        Hcb, Hhome, Hck, Hlogin, hlc, if_true, Hbiz]
      simp [List.append_assoc]
    · simp only [runFlowM, AutoM_bind_def, autoBind, AutoM_pure_def, autoPure, sleepMs,
        getClock, recordEv, readUrlM, liftE, raiseIfSome, tryAll, tryPwTimeout, logM,
        Hcb, Hhome, Hck, Hlogin, hlc, Bool.false_eq_true, if_false, Hbiz]
      simp [autoBind, logM, hlc, List.append_assoc]
  have hcount : ∀ q : Event → Bool, q Event.extractCalled = false →
      q (Event.navigate "https://business.gemini.google/") = false →
      q (Event.navigate authHomeUrl) = false →
      q (Event.navigate (buildLoginUrl email)) = false →
      ((runFlowM env email) st).2.events.countP q = st.events.countP q := by
    intro q h1 h2 h3 h4
    rw [hand]
    obtain ⟨δ, he, hp⟩ := ao_extract env email
      ⟨st.clock + env.dGotoHome + 2000 + env.dGotoLogin + 5000,
       if env.hasLogCallback then st.logCalls + 6 else st.logCalls,
       st.events ++ [Event.navigate authHomeUrl, Event.navigate (buildLoginUrl email)]⟩
    rw [he]
    simp only [List.countP_append]
    have hz : δ.countP q = 0 := by
      rw [List.countP_eq_zero]
      intro e hm
      rcases hp e hm with rfl | rfl
      · simp [h1]
      · simp [h2]
    simp [hz, List.countP_cons, h3, h4]
  refine ⟨hand, ?_, ?_, ?_, ?_, ?_⟩
  · exact hcount _ (by decide) (by decide) (by decide) (by simp [buildLoginUrl])
  · exact hcount _ (by decide) (by decide) (by decide) (by simp [buildLoginUrl])
  · exact hcount _ (by decide) (by decide) (by decide) (by simp [buildLoginUrl, isPollEv])
  · exact hcount _ (by decide) (by decide) (by decide) (by simp [buildLoginUrl])
  · rw [hand]
    exact extract_called_mem env email _

/-- Under a non-cancelling log callback, successful navigations, a found
send-code button, a visible code input, a first poll that returns no code
and a missing resend button, the flow fails with the plain code-timeout
result after exactly one poll and one resend search. -/
theorem flow_resendFail_eq (env : FlowEnv) (email : String) (st : FlowSt)
    (Hcb : ∀ i l m, env.logCb i l m = LogOutcome.ok)
    (Hhome : env.gotoHome = Except.ok ())
    (Hck : env.addCookiesExc = none)
    (Hlogin : env.gotoLogin = Except.ok ())
    (Hbiz : hasBusinessParams
      (env.pageUrl (st.clock + env.dGotoHome + 2000 + env.dGotoLogin + 5000)) = false)
    (Hsend : env.sendBtn = Except.ok true)
    (Hwait : env.waitInput = true)
    (Hp1 : env.poll1 = none)
    (hr : env.resendBtn = false) :
    runFlowM env email st =
      (Except.ok (ExtractOutcome.failure "verification code timeout"),
       ⟨st.clock + env.dGotoHome + 2000 + env.dGotoLogin + 5000 + (2000 + env.dSendBtn) +
          env.dWaitInput + env.dPoll1 + (2000 + env.dResendBtn) + env.dScreenshot,
        if env.hasLogCallback then st.logCalls + 10 else st.logCalls,
        st.events ++ [Event.navigate authHomeUrl, Event.navigate (buildLoginUrl email),
          Event.sendCodeSearch, Event.waitCodeInput, Event.pollMail st.clock,
          Event.resendSearch, Event.screenshot "code_timeout",
          Event.failAt FailSite.codeTimeout]⟩) := by
  by_cases hlc : env.hasLogCallback
  · simp only [runFlowM, AutoM_bind_def, autoBind, AutoM_pure_def, autoPure, sleepMs,
      getClock, recordEv, readUrlM, liftE, raiseIfSome, tryAll, tryPwTimeout, logM,
      clickSendCodeButtonM, waitForCodeInputM, pollForCodeM, clickResendCodeButtonM,
      saveScreenshotM, Hcb, Hhome, Hck, Hlogin, hlc, if_true, Hbiz, Hsend, Hwait, Hp1, hr,
      Bool.false_eq_true, if_false, Bool.not_true, Bool.not_false]
    simp [List.append_assoc]
  · simp only [runFlowM, AutoM_bind_def, autoBind, AutoM_pure_def, autoPure, sleepMs,
      getClock, recordEv, readUrlM, liftE, raiseIfSome, tryAll, tryPwTimeout, logM,
      clickSendCodeButtonM, waitForCodeInputM, pollForCodeM, clickResendCodeButtonM,
      saveScreenshotM, Hcb, Hhome, Hck, Hlogin, hlc, Hbiz, Hsend, Hwait, Hp1, hr,
      Bool.false_eq_true, if_false, Bool.not_true, Bool.not_false]
    simp [autoBind, autoPure, logM, recordEv, sleepMs, hlc, List.append_assoc]

/-- Same frame but with the resend button found and the second poll also
empty: the flow fails with the after-resend timeout after exactly two
polls, the second floored at the re-recorded instant. -/
theorem flow_resendNone_eq (env : FlowEnv) (email : String) (st : FlowSt)
    (Hcb : ∀ i l m, env.logCb i l m = LogOutcome.ok)
    (Hhome : env.gotoHome = Except.ok ())
    (Hck : env.addCookiesExc = none)
    (Hlogin : env.gotoLogin = Except.ok ())
    (Hbiz : hasBusinessParams
      (env.pageUrl (st.clock + env.dGotoHome + 2000 + env.dGotoLogin + 5000)) = false)
    (Hsend : env.sendBtn = Except.ok true)
    (Hwait : env.waitInput = true)
    (Hp1 : env.poll1 = none)
    (hr : env.resendBtn = true)
    (hp2 : env.poll2 = none) :
    runFlowM env email st =
      (Except.ok (ExtractOutcome.failure "verification code timeout after resend"),
       ⟨st.clock + env.dGotoHome + 2000 + env.dGotoLogin + 5000 + (2000 + env.dSendBtn) +
          env.dWaitInput + env.dPoll1 + (2000 + env.dResendBtn) + env.dPoll2 +
          env.dScreenshot,
        if env.hasLogCallback then st.logCalls + 11 else st.logCalls,
        st.events ++ [Event.navigate authHomeUrl, Event.navigate (buildLoginUrl email),
          Event.sendCodeSearch, Event.waitCodeInput, Event.pollMail st.clock,
          Event.resendSearch,
          Event.pollMail (st.clock + env.dGotoHome + 2000 + env.dGotoLogin + 5000 +
            (2000 + env.dSendBtn) + env.dWaitInput + env.dPoll1),
          Event.screenshot "code_timeout_after_resend",
          Event.failAt FailSite.codeTimeoutAfterResend]⟩) := by
  by_cases hlc : env.hasLogCallback
  · simp only [runFlowM, AutoM_bind_def, autoBind, AutoM_pure_def, autoPure, sleepMs,
      getClock, recordEv, readUrlM, liftE, raiseIfSome, tryAll, tryPwTimeout, logM,
      clickSendCodeButtonM, waitForCodeInputM, pollForCodeM, clickResendCodeButtonM,
      saveScreenshotM, Hcb, Hhome, Hck, Hlogin, hlc, if_true, Hbiz, Hsend, Hwait, Hp1, hr,
      hp2, Bool.false_eq_true, if_false, Bool.not_true, Bool.not_false]
    simp [List.append_assoc]
  · simp only [runFlowM, AutoM_bind_def, autoBind, AutoM_pure_def, autoPure, sleepMs,
      getClock, recordEv, readUrlM, liftE, raiseIfSome, tryAll, tryPwTimeout, logM,
      clickSendCodeButtonM, waitForCodeInputM, pollForCodeM, clickResendCodeButtonM,
      saveScreenshotM, Hcb, Hhome, Hck, Hlogin, hlc, Hbiz, Hsend, Hwait, Hp1, hr,
      hp2, Bool.false_eq_true, if_false, Bool.not_true, Bool.not_false]
    simp [autoBind, autoPure, logM, recordEv, sleepMs, hlc, List.append_assoc]

/-- Same frame but the second poll returns a code `c`: the run continues
as the post-code phase from the state after the two polls. -/
theorem flow_resendSome_eq (env : FlowEnv) (email : String) (st : FlowSt) (c : String)
    (Hcb : ∀ i l m, env.logCb i l m = LogOutcome.ok)
    (Hhome : env.gotoHome = Except.ok ())
    (Hck : env.addCookiesExc = none)
    (Hlogin : env.gotoLogin = Except.ok ())
    (Hbiz : hasBusinessParams
      (env.pageUrl (st.clock + env.dGotoHome + 2000 + env.dGotoLogin + 5000)) = false)
    (Hsend : env.sendBtn = Except.ok true)
    (Hwait : env.waitInput = true)
    (Hp1 : env.poll1 = none)
    (hr : env.resendBtn = true)
    (hp2 : env.poll2 = some c) :
    runFlowM env email st = submitPhaseM env email c
      ⟨st.clock + env.dGotoHome + 2000 + env.dGotoLogin + 5000 + (2000 + env.dSendBtn) +
         env.dWaitInput + env.dPoll1 + (2000 + env.dResendBtn) + env.dPoll2,
       if env.hasLogCallback then st.logCalls + 10 else st.logCalls,
       st.events ++ [Event.navigate authHomeUrl, Event.navigate (buildLoginUrl email),
         Event.sendCodeSearch, Event.waitCodeInput, Event.pollMail st.clock,
         Event.resendSearch,
         Event.pollMail (st.clock + env.dGotoHome + 2000 + env.dGotoLogin + 5000 +
           (2000 + env.dSendBtn) + env.dWaitInput + env.dPoll1)]⟩ := by
  by_cases hlc : env.hasLogCallback
  · simp only [runFlowM, AutoM_bind_def, autoBind, AutoM_pure_def, autoPure, sleepMs,
      getClock, recordEv, readUrlM, liftE, raiseIfSome, tryAll, tryPwTimeout, logM,
      clickSendCodeButtonM, waitForCodeInputM, pollForCodeM, clickResendCodeButtonM,
      saveScreenshotM, Hcb, Hhome, Hck, Hlogin, hlc, if_true, Hbiz, Hsend, Hwait, Hp1, hr,
      hp2, Bool.false_eq_true, if_false, Bool.not_true, Bool.not_false]
    simp [List.append_assoc]
  · simp only [runFlowM, AutoM_bind_def, autoBind, AutoM_pure_def, autoPure, sleepMs,
      getClock, recordEv, readUrlM, liftE, raiseIfSome, tryAll, tryPwTimeout, logM,
      clickSendCodeButtonM, waitForCodeInputM, pollForCodeM, clickResendCodeButtonM,
      saveScreenshotM, Hcb, Hhome, Hck, Hlogin, hlc, Hbiz, Hsend, Hwait, Hp1, hr,
      hp2, Bool.false_eq_true, if_false, Bool.not_true, Bool.not_false]
    simp [autoBind, autoPure, logM, recordEv, sleepMs, hlc, List.append_assoc]

theorem submit_count_pres (env : FlowEnv) (email c : String) (st : FlowSt)
    (q : Event → Bool) (hq : ∀ e, submitAllowed e → q e = false) :
    ((submitPhaseM env email c) st).2.events.countP q = st.events.countP q := by
  obtain ⟨δ, he, hp⟩ := ao_submitPhase env email c st
  rw [he, List.countP_append]
  have hz : δ.countP q = 0 := by
    rw [List.countP_eq_zero]
    intro e hm
    simp [hq e (hp e hm)]
  omega

theorem submit_pollSinces_pres (env : FlowEnv) (email c : String) (st : FlowSt) :
    pollSinces ((submitPhaseM env email c) st).2.events = pollSinces st.events := by
  obtain ⟨δ, he, hp⟩ := ao_submitPhase env email c st
  rw [he]
  unfold pollSinces
  rw [List.filterMap_append]
  have hz : δ.filterMap (fun e =>
      match e with
      | Event.pollMail s => some s
      | _ => none) = [] := by
    rw [List.filterMap_eq_nil_iff]
    intro e hm
    have := hp e hm
    cases e <;> first | rfl | exact this.elim
  simp [hz]

/-- C3: (i) in no execution — over every environment, every path, and
also on exceptional exits — is the mail poller invoked a third time (at
most two `pollMail` events are ever added); (ii) in a completed run whose
first poll returns no code (frame hypotheses: non-cancelling log
callback, successful navigations and cookie install, no short-circuit,
send button found, code input visible), the resend-button search happens
exactly once; if the button is missing the flow fails with
`"verification code timeout"` after exactly one poll, and if it is found
exactly one further poll happens, after which an empty second poll fails
with `"verification code timeout after resend"`. -/
theorem c3_resend_exactly_once (env : FlowEnv) (email : String) (st : FlowSt)
    (Hcb : ∀ i l m, env.logCb i l m = LogOutcome.ok)
    (Hhome : env.gotoHome = Except.ok ())
    (Hck : env.addCookiesExc = none)
    (Hlogin : env.gotoLogin = Except.ok ())
    (Hbiz : hasBusinessParams
      (env.pageUrl (st.clock + env.dGotoHome + 2000 + env.dGotoLogin + 5000)) = false)
    (Hsend : env.sendBtn = Except.ok true)
    (Hwait : env.waitInput = true)
    (Hp1 : env.poll1 = none) :
    (∀ (env' : FlowEnv) (email' : String) (st' : FlowSt),
      ((runFlowM env' email') st').2.events.countP isPollEv ≤
        st'.events.countP isPollEv + 2) ∧
    ((runFlowM env email) st).2.events.countP (fun e => decide (e = Event.resendSearch)) =
      st.events.countP (fun e => decide (e = Event.resendSearch)) + 1 ∧
    (env.resendBtn = false →
      (runFlowM env email st).1 =
        Except.ok (ExtractOutcome.failure "verification code timeout") ∧
      ((runFlowM env email) st).2.events.countP isPollEv =
        st.events.countP isPollEv + 1) ∧
    (env.resendBtn = true →
      ((runFlowM env email) st).2.events.countP isPollEv =
        st.events.countP isPollEv + 2) ∧
    (env.resendBtn = true → env.poll2 = none →
      (runFlowM env email st).1 =
        Except.ok (ExtractOutcome.failure "verification code timeout after resend")) := by
  refine ⟨fun env' email' st' => pa_runFlow env' email' st', ?_, ?_, ?_, ?_⟩
  · cases hr : env.resendBtn with
    | false =>
      rw [flow_resendFail_eq env email st Hcb Hhome Hck Hlogin Hbiz Hsend Hwait Hp1 hr]
      simp [List.countP_append, buildLoginUrl]
    | true =>
      cases hp2 : env.poll2 with
      | none =>
        rw [flow_resendNone_eq env email st Hcb Hhome Hck Hlogin Hbiz Hsend Hwait Hp1 hr hp2]
        simp [List.countP_append, buildLoginUrl]
      | some c =>
        rw [flow_resendSome_eq env email st c Hcb Hhome Hck Hlogin Hbiz Hsend Hwait Hp1 hr hp2]
        rw [submit_count_pres env email c _ _
          (fun e he => by cases e <;> first | rfl | exact he.elim)]
        simp [List.countP_append, buildLoginUrl]
  · intro hr
    rw [flow_resendFail_eq env email st Hcb Hhome Hck Hlogin Hbiz Hsend Hwait Hp1 hr]
    constructor
    · rfl
    · simp [List.countP_append, isPollEv]
  · intro hr
    cases hp2 : env.poll2 with
    | none =>
      rw [flow_resendNone_eq env email st Hcb Hhome Hck Hlogin Hbiz Hsend Hwait Hp1 hr hp2]
      simp [List.countP_append, isPollEv]
    | some c =>
      rw [flow_resendSome_eq env email st c Hcb Hhome Hck Hlogin Hbiz Hsend Hwait Hp1 hr hp2]
      rw [submit_count_pres env email c _ isPollEv
        (fun e he => by cases e <;> first | rfl | exact he.elim)]
      simp [List.countP_append, isPollEv]
  · intro hr hp2
    rw [flow_resendNone_eq env email st Hcb Hhome Hck Hlogin Hbiz Hsend Hwait Hp1 hr hp2]

/-- C9: in a frame run whose first poll returns no code and whose resend
button is found, the floor timestamp is re-recorded to the instant
reached after the first poll completes (`send_time = datetime.now()` on
line 201, strictly later than the original floor — the elapsed prefix
includes at least the fixed 9 s of sleeps) before the resend-button
search, and the second `poll_for_code` call receives exactly that fresh
floor as its `since_time`. -/
theorem c9_fresh_resend_floor (env : FlowEnv) (email : String) (st : FlowSt)
    (Hcb : ∀ i l m, env.logCb i l m = LogOutcome.ok)
    (Hhome : env.gotoHome = Except.ok ())
    (Hck : env.addCookiesExc = none)
    (Hlogin : env.gotoLogin = Except.ok ())
    (Hbiz : hasBusinessParams
      (env.pageUrl (st.clock + env.dGotoHome + 2000 + env.dGotoLogin + 5000)) = false)
    (Hsend : env.sendBtn = Except.ok true)
    (Hwait : env.waitInput = true)
    (Hp1 : env.poll1 = none)
    (hr : env.resendBtn = true) :
    pollSinces ((runFlowM env email) st).2.events =
      pollSinces st.events ++ [st.clock,
        st.clock + (env.dGotoHome + env.dGotoLogin + env.dSendBtn + env.dWaitInput +
          env.dPoll1 + 9000)] ∧
    st.clock < st.clock + (env.dGotoHome + env.dGotoLogin + env.dSendBtn +
      env.dWaitInput + env.dPoll1 + 9000) := by
  refine ⟨?_, by omega⟩
  cases hp2 : env.poll2 with
  | none =>
    rw [flow_resendNone_eq env email st Hcb Hhome Hck Hlogin Hbiz Hsend Hwait Hp1 hr hp2]
    unfold pollSinces
    simp [List.filterMap_append]
    omega
  | some c =>
    rw [flow_resendSome_eq env email st c Hcb Hhome Hck Hlogin Hbiz Hsend Hwait Hp1 hr hp2]
    rw [submit_pollSinces_pres]
    unfold pollSinces
    simp [List.filterMap_append]
    omega

/-- C4: `login_and_extract` (i) never raises anything but the
cancellation signal — every exceptional exit carries `TaskCancelledError`;
(ii) runs the teardown `stop()` on every completion, failure and
cancellation (the `finally` records the `stopped` event on every path);
(iii) converts any non-cancellation exception reaching the top level into
`{"success": False, "error": str(exception)}`, provided the error-level
log call in the handler does not itself raise a cancellation. -/
theorem c4_top_level_contract (env : FlowEnv) (email : String) (st : FlowSt) :
    (∀ e, (loginAndExtractM env email st).1 = Except.error e →
      ∃ m, e = PyExc.cancelled m) ∧
    Event.stopped ∈ ((loginAndExtractM env email) st).2.events ∧
    (∀ e st₁, (innerM env email) st = (Except.error e, st₁) →
      (∀ m, e ≠ PyExc.cancelled m) →
      (∀ cm, env.logCb st₁.logCalls "error" ("automation error: " ++ pyExcStr e) ≠
        LogOutcome.cancel cm) →
      (loginAndExtractM env email st).1 =
        Except.ok (ExtractOutcome.failure (pyExcStr e))) := by
  refine ⟨?_, ?_, ?_⟩
  · intro e he
    unfold loginAndExtractM tryFin tryNonCancel stopM recordEv at he
    cases hm : (innerM env email) st with
    | mk r st₁ =>
      rw [hm] at he
      dsimp only at he
      cases r with
      | ok a => simp at he
      | error ex =>
        cases ex with
        | cancelled m =>
          simp at he
          exact ⟨m, he.symm⟩
        | pwTimeout m =>
          simp only [AutoM_bind_def, autoBind, AutoM_pure_def, autoPure, logM] at he
          by_cases hlc : env.hasLogCallback
          · simp only [hlc, if_true] at he
            cases hcb : env.logCb st₁.logCalls "error"
                ("automation error: " ++ pyExcStr (PyExc.pwTimeout m)) with
            | ok =>
              rw [hcb] at he
              simp at he
            | cancel cm =>
              rw [hcb] at he
              simp at he
              exact ⟨cm, he.symm⟩
            | fail fm =>
              rw [hcb] at he
              simp at he
          · simp [hlc] at he
        | other m =>
          simp only [AutoM_bind_def, autoBind, AutoM_pure_def, autoPure, logM] at he
          by_cases hlc : env.hasLogCallback
          · simp only [hlc, if_true] at he
            cases hcb : env.logCb st₁.logCalls "error"
                ("automation error: " ++ pyExcStr (PyExc.other m)) with
            | ok =>
              rw [hcb] at he
              simp at he
            | cancel cm =>
              rw [hcb] at he
              simp at he
              exact ⟨cm, he.symm⟩
            | fail fm =>
              rw [hcb] at he
              simp at he
          · simp [hlc] at he
  · unfold loginAndExtractM tryFin tryNonCancel stopM recordEv
    cases hm : (innerM env email) st with
    | mk r st₁ =>
      dsimp only
      cases r with
      | ok a => simp
      | error ex =>
        cases ex with
        | cancelled m => simp
        | pwTimeout m =>
          simp only [AutoM_bind_def, autoBind, AutoM_pure_def, autoPure, logM]
          by_cases hlc : env.hasLogCallback
          · simp only [hlc, if_true]
            cases hcb : env.logCb st₁.logCalls "error"
                ("automation error: " ++ pyExcStr (PyExc.pwTimeout m)) with
            | ok => simp
            | cancel cm => simp
            | fail fm => simp
          · simp [hlc]
        | other m =>
          simp only [AutoM_bind_def, autoBind, AutoM_pure_def, autoPure, logM]
          by_cases hlc : env.hasLogCallback
          · simp only [hlc, if_true]
            cases hcb : env.logCb st₁.logCalls "error"
                ("automation error: " ++ pyExcStr (PyExc.other m)) with
            | ok => simp
            | cancel cm => simp
            | fail fm => simp
          · simp [hlc]
  · intro e st₁ hm hne hnc
    unfold loginAndExtractM tryFin tryNonCancel stopM recordEv
    rw [hm]
    dsimp only
    cases e with
    | cancelled m => exact absurd rfl (hne m)
    | pwTimeout m =>
      simp only [AutoM_bind_def, autoBind, AutoM_pure_def, autoPure, logM]
      by_cases hlc : env.hasLogCallback
      · simp only [hlc, if_true]
        cases hcb : env.logCb st₁.logCalls "error"
            ("automation error: " ++ pyExcStr (PyExc.pwTimeout m)) with
        | ok => simp
        | cancel cm => exact absurd hcb (hnc cm)
        | fail fm => simp
      · simp [hlc]
    | other m =>
      simp only [AutoM_bind_def, autoBind, AutoM_pure_def, autoPure, logM]
      by_cases hlc : env.hasLogCallback
      · simp only [hlc, if_true]
        cases hcb : env.logCb st₁.logCalls "error"
            ("automation error: " ++ pyExcStr (PyExc.other m)) with
        | ok => simp
        | cancel cm => exact absurd hcb (hnc cm)
        | fail fm => simp
      · simp [hlc]

/-- C5, amended: (i) `_log` itself never converts a cancellation raised
by the callback — it re-raises it, incrementing only the call counter —
while (ii) any other exception the callback raises is swallowed there;
and (iii) a cancellation that escapes the flow propagates through
`login_and_extract`'s handlers unmodified (the `except TaskCancelledError:
raise` guard), with the teardown still recorded.  (A cancellation raised
during a log call placed inside a helper's generic `try` — such as the
simulator's success-path log on line 391 — is caught by the surrounding
`except Exception` and converted into a `False` return: the
counterexample.) -/
theorem c5_cancellation_propagation :
    (∀ (env : FlowEnv) (st : FlowSt) (l m cm : String),
      env.hasLogCallback = true →
      env.logCb st.logCalls l m = LogOutcome.cancel cm →
      logM env l m st = (Except.error (PyExc.cancelled cm),
        { st with logCalls := st.logCalls + 1 })) ∧
    (∀ (env : FlowEnv) (st : FlowSt) (l m fm : String),
      env.hasLogCallback = true →
      env.logCb st.logCalls l m = LogOutcome.fail fm →
      logM env l m st = (Except.ok (), { st with logCalls := st.logCalls + 1 })) ∧
    (∀ (env : FlowEnv) (email : String) (st st₁ : FlowSt) (cm : String),
      (innerM env email) st = (Except.error (PyExc.cancelled cm), st₁) →
      loginAndExtractM env email st = (Except.error (PyExc.cancelled cm),
        { st₁ with events := st₁.events ++ [Event.stopped] })) := by
  refine ⟨?_, ?_, ?_⟩
  · intro env st l m cm hlc hcb
    unfold logM
    rw [hlc, if_pos rfl, hcb]
  · intro env st l m fm hlc hcb
    unfold logM
    rw [hlc, if_pos rfl, hcb]
  · intro env email st st₁ cm hm
    unfold loginAndExtractM tryFin tryNonCancel stopM recordEv
    rw [hm]

/-- C3, witness: with the resend button present both polls happen and the
after-resend timeout is returned; without it a single poll happens and
the plain timeout is returned. -/
theorem c3_witness :
    ((runFlowM envBase "a@b") ⟨0, 0, []⟩).2.events.countP isPollEv = 2 ∧
    (runFlowM envBase "a@b" ⟨0, 0, []⟩).1 =
      Except.ok (ExtractOutcome.failure "verification code timeout after resend") ∧
    ((runFlowM envNoResend "a@b") ⟨0, 0, []⟩).2.events.countP
      isPollEv = 1 ∧
    (runFlowM envNoResend "a@b" ⟨0, 0, []⟩).1 =
      Except.ok (ExtractOutcome.failure "verification code timeout") := by
  have h1 := c3_resend_exactly_once envBase "a@b" ⟨0, 0, []⟩ (fun _ _ _ => rfl)
    rfl rfl rfl (by decide) rfl rfl rfl
  have h2 := c3_resend_exactly_once envNoResend "a@b" ⟨0, 0, []⟩
    (fun _ _ _ => rfl) rfl rfl rfl (by decide) rfl rfl rfl
  exact ⟨h1.2.2.2.1 rfl, h1.2.2.2.2 rfl rfl, (h2.2.2.1 rfl).2, (h2.2.2.1 rfl).1⟩

/-- C8, witness: in the already-authenticated environment the run
performs no poll and reaches extraction. -/
theorem c8_witness :
    ((runFlowM envShort "user@example.com") ⟨0, 0, []⟩).2.events.countP isPollEv = 0 ∧
    ((runFlowM envShort "user@example.com") ⟨0, 0, []⟩).2.events.countP
      (fun e => decide (e = Event.usernameSetup)) = 0 ∧
    Event.extractCalled ∈ ((runFlowM envShort "user@example.com") ⟨0, 0, []⟩).2.events := by
  have h := c8_short_circuit envShort "user@example.com" ⟨0, 0, []⟩ (fun _ _ _ => rfl)
    rfl rfl rfl (by decide)
  exact ⟨h.2.2.2.1, h.2.2.2.2.1, h.2.2.2.2.2⟩

/-- C9, witness: in the base environment the two polls carry the floors
0 and 9000 (the second re-recorded after the 9 s of fixed sleeps). -/
theorem c9_witness :
    pollSinces ((runFlowM envBase "a@b") ⟨0, 0, []⟩).2.events = [0, 9000] ∧
    (0 : Nat) < 9000 := by
  have h := c9_fresh_resend_floor envBase "a@b" ⟨0, 0, []⟩ (fun _ _ _ => rfl)
    rfl rfl rfl (by decide) rfl rfl rfl rfl
  exact ⟨h.1, h.2⟩

/-- C4, witness: a connection failure is converted into the structured
failure carrying its message, and teardown still runs. -/
theorem c4_witness :
    (loginAndExtractM envConnBoom
      "e" ⟨0, 0, []⟩).1 = Except.ok (ExtractOutcome.failure "boom") ∧
    Event.stopped ∈ ((loginAndExtractM
      envConnBoom "e")
      ⟨0, 0, []⟩).2.events := by
  refine ⟨?_, (c4_top_level_contract
    envConnBoom "e" ⟨0, 0, []⟩).2.1⟩
  exact (c4_top_level_contract
      envConnBoom "e" ⟨0, 0, []⟩).2.2
    (PyExc.other "boom") ⟨0, 0, []⟩ rfl
    (fun m h => PyExc.noConfusion h)
    (fun cm h => LogOutcome.noConfusion h)

/-- C5, witness for the amended theorem: a cancellation raised by the
callback is re-raised by `_log` with only the call counter bumped, and a
cancellation escaping the flow leaves `login_and_extract` as that same
exception with the teardown recorded. -/
theorem c5_witness :
    logM envCbCancel "info" "x" ⟨0, 0, []⟩ =
      (Except.error (PyExc.cancelled "c"), ⟨0, 1, []⟩) ∧
    loginAndExtractM envConnCancel
      "e" ⟨0, 0, []⟩ =
      (Except.error (PyExc.cancelled "stop"), ⟨0, 0, [Event.stopped]⟩) := by
  refine ⟨?_, ?_⟩
  · exact c5_cancellation_propagation.1
      envCbCancel
      ⟨0, 0, []⟩ "info" "x" "c" rfl rfl
  · exact c5_cancellation_propagation.2.2
      envConnCancel
      "e" ⟨0, 0, []⟩ ⟨0, 0, []⟩ "stop" rfl

/-- C5, counterexample: in `envCancelSim` the logging collaborator raises
the cancellation signal during the simulator's success-path log call, yet
the caller of `login_and_extract` receives an ordinary success result —
the generic `except Exception` inside `_simulate_human_input` (line 393)
caught the cancellation and converted it into a `False` return, and the
flow carried on to extraction. -/
theorem c5_counterexample :
    envCancelSim.hasLogCallback = true ∧
    envCancelSim.logCb 0 "info" "simulated human input successfully" =
      LogOutcome.cancel "task cancelled" ∧
    (loginAndExtractM envCancelSim "user@example.com" ⟨0, 0, []⟩).1 =
      Except.ok (ExtractOutcome.success
        ⟨"user@example.com", "xyz", "abc123", some "tokenA", none,
         "2025-01-01 12:00:00"⟩) := by
  refine ⟨rfl, rfl, ?_⟩
  rfl
